import Mathlib

/-!
Verification of the pv2 srpmproc spec-file patch editor.

This file gives a shallow embedding of the editor subsystem of the pv2
repository (`pv2/srpmproc/editor.py`, `pv2/srpmproc/util.py`, and the
helpers they use from `pv2/util/generic.py` and `pv2/util/rpmutil.py`),
followed by theorems settling the frozen claims about it.

Modelling conventions:
* a file is a `List String` of lines without terminating newlines,
  exactly as produced by `read_file_to_list`;
* Python exceptions become `Except Err`; returning `.ok` models the
  success path (for the line editors, `.ok` is the value written back
  to disk and `.error` means the file was not rewritten);
* machine-level collaborators that live outside the repository
  (the `re` module, `textwrap`, the rpm bindings behind `spec_parse`,
  the file system, `yaml.safe_load`) are modelled at their interface:
  regexes appearing in the source are compiled by hand into character
  list scanners, `spec_parse` output is passed in as an argument, and
  YAML documents are passed in as already-parsed `YVal` trees.
-/

/-- Error kinds raised by the editor, mirroring `pv2/util/error.py`.
Message payloads are kept as free-form strings; `notApplied` keeps the
action name and the find target structurally because several claims are
about exactly those fields.  `pythonTypeError` / `pythonAttributeError`
model unhandled Python exceptions (crashes that are not editor errors),
and `fuelExhausted` is an artifact of embedding the one unbounded
`while` loop with fuel (see `data_processor`). -/
inductive Err where
  | fileNotFound (msg : String)
  | tooManyFiles (msg : String)
  | notApplied (action : String) (findTarget : List String)
  | rpmParse (msg : String)
  | patchConfigValue (msg : String)
  | patchConfigType (msg : String)
  | pythonTypeError (msg : String)
  | pythonAttributeError (msg : String)
  | fuelExhausted
  deriving Repr, DecidableEq

/-- Whitespace set of Python `str.strip` / regex `\s` (ASCII range). -/
def pyIsSpace (c : Char) : Bool :=
  c == ' ' || c == '\t' || c == '\n' || c == '\r' || c == '\x0b' || c == '\x0c'

/-- Python `s.lstrip()`. -/
def py_lstrip (s : String) : String :=
  ⟨s.toList.dropWhile pyIsSpace⟩

/-- Python `s.rstrip()`. -/
def py_rstrip (s : String) : String :=
  ⟨(s.toList.reverse.dropWhile pyIsSpace).reverse⟩

/-- Python `s.strip()`. -/
def py_strip (s : String) : String :=
  py_rstrip (py_lstrip s)

/-- Python `s.strip(chars)` for an explicit strip set. -/
def py_strip_set (cs : List Char) (s : String) : String :=
  ⟨((s.toList.dropWhile (cs.contains ·)).reverse.dropWhile (cs.contains ·)).reverse⟩

/-- Python `p in s` prefix test used for `str.startswith` and for the
anchored `re.match` scans (`re.match` anchors at position 0). -/
def pyStartsWith (p s : String) : Bool :=
  p.toList.isPrefixOf s.toList

/-- Auxiliary for `pyCount`: non-overlapping occurrence count, written
with a pending-skip counter so the recursion is structural on the
scanned list.  After a match at the current position the next
`f.length - 1` characters are skipped, matching how `str.count`
resumes the search after the matched slice. -/
def count_occ_skip (f : List Char) : Nat → List Char → Nat
  | _, [] => 0
  | Nat.succ k, _ :: cs => count_occ_skip f k cs
  | 0, c :: cs =>
    if f.isPrefixOf (c :: cs) then 1 + count_occ_skip f (f.length - 1) cs
    else count_occ_skip f 0 cs

/-- Python `s.count(find)` (non-overlapping).  An empty `find` counts
`len(s) + 1` occurrences, as in Python; the editor never passes an
empty find because `Action.validate` rejects empty values. -/
def pyCount (find s : String) : Nat :=
  if find.toList.isEmpty then s.toList.length + 1
  else count_occ_skip find.toList 0 s.toList

/-- Auxiliary for `pyReplaceOne`: replace the first occurrence. -/
def replace_one_core (f r : List Char) : List Char → List Char
  | [] => if f.isEmpty then r else []
  | c :: cs =>
    if f.isPrefixOf (c :: cs) then r ++ (c :: cs).drop f.length
    else c :: replace_one_core f r cs

/-- Python `s.replace(find, repl, 1)`. -/
def pyReplaceOne (find repl s : String) : String :=
  ⟨replace_one_core find.toList repl.toList s.toList⟩

/-- Auxiliary for `pyReplaceAll`: non-overlapping left-to-right
replacement with a pending-skip counter (structural recursion). -/
def replace_all_core (f r : List Char) : Nat → List Char → List Char
  | _, [] => []
  | Nat.succ k, _ :: cs => replace_all_core f r k cs
  | 0, c :: cs =>
    if f.isPrefixOf (c :: cs) then r ++ replace_all_core f r (f.length - 1) cs
    else c :: replace_all_core f r 0 cs

/-- Replacement of every non-overlapping occurrence, used to model
`re.sub(pattern, repl, line, 0)` for literal patterns.  An empty
pattern is left untouched (never produced by the editor). -/
def pyReplaceAll (find repl s : String) : String :=
  if find.toList.isEmpty then s
  else ⟨replace_all_core find.toList repl.toList 0 s.toList⟩

/-- Python `"sep".join(xs)`, written recursively so proofs can peel the
head element. -/
def pyJoin (sep : String) : List String → String
  | [] => ""
  | [x] => x
  | x :: xs => x ++ sep ++ pyJoin sep xs

/-- Auxiliary for `py_words`: whitespace split carrying the current
word (reversed). -/
def py_words_go : List Char → List Char → List String
  | [], [] => []
  | [], cur => [⟨cur.reverse⟩]
  | c :: cs, cur =>
    if pyIsSpace c then
      if cur.isEmpty then py_words_go cs []
      else ⟨cur.reverse⟩ :: py_words_go cs []
    else py_words_go cs (c :: cur)

/-- Python `s.split()` with no argument: split on whitespace runs,
dropping empty fields. -/
def py_words (s : String) : List String :=
  py_words_go s.toList []

/-- Python `s.split(sep)[-1]` the way `spec_evr` uses it: last
whitespace-separated token of the right-stripped line (default `""`
models the unreachable empty-split case). -/
def last_token (s : String) : String :=
  (py_words (py_rstrip s)).getLastD ""

/-- Python `"\n" in s` test used by `SearchAndReplace.execute`. -/
def pyContainsNL (s : String) : Bool :=
  s.toList.contains '\n'

/-- Python `s.splitlines()` restricted to `\n` separators: like
`splitOn` but with no trailing empty field. -/
def pySplitLines (s : String) : List String :=
  let parts := s.splitOn "\n"
  if parts.getLast? == some "" then parts.dropLast else parts

/-- Digits-to-number conversion for regex capture groups. -/
def natOfDigits (cs : List Char) : Nat :=
  cs.foldl (fun a c => 10 * a + (c.toNat - 48)) 0

/-- Python `str(i)` for the integers the editor prints. -/
def pyStr (i : Int) : String :=
  toString i

/-- `generic.read_file_to_list`: reading an empty (or missing) file
raises `FileNotFound`; otherwise the line list is returned.  The
filesystem read itself is external, so the model takes the on-disk
line list as input and keeps only the emptiness check. -/
def read_file_to_list (file : List String) : Except Err (List String) :=
  if file.isEmpty then
    .error (.fileNotFound "File is empty, doesn't exist, or is not valid")
  else .ok file

/-- `generic.line_is_comment`. -/
def line_is_comment (line : String) : Bool :=
  pyStartsWith "#" line

/-- `rpmutil.spec_line_changelog`: the line equals `%changelog` after
stripping newline, space and tab from both ends. -/
def spec_line_changelog (line : String) : Bool :=
  py_strip_set ['\n', ' ', '\t'] line == "%changelog"

/-- `rpmutil.spec_autochangelog` single-line test: regex
`^\s?%autochangelog` (at most one leading whitespace character). -/
def autochangelog_line (line : String) : Bool :=
  pyStartsWith "%autochangelog" line ||
    (match line.toList with
     | c :: rest => pyIsSpace c && "%autochangelog".toList.isPrefixOf rest
     | [] => false)

/-- `rpmutil.spec_autochangelog`. -/
def spec_autochangelog (rpm_spec : List String) : Bool :=
  rpm_spec.any autochangelog_line

/-- `rpmutil.spec_autosetup` single-line test: regex
`^\s?%(autosetup|forgeautosetup|autopatch)`. -/
def autosetup_line (line : String) : Bool :=
  let core := fun (cs : List Char) =>
    "%autosetup".toList.isPrefixOf cs ||
    "%forgeautosetup".toList.isPrefixOf cs ||
    "%autopatch".toList.isPrefixOf cs
  core line.toList ||
    (match line.toList with
     | c :: rest => pyIsSpace c && core rest
     | [] => false)

/-- `rpmutil.spec_autosetup`. -/
def spec_autosetup (rpm_spec : List String) : Bool :=
  rpm_spec.any autosetup_line

/-- `rpmutil.spec_evr` scan: for each of Epoch/Version/Release, the
first line starting with the directive contributes its last
whitespace-separated token. -/
def spec_evr_go : List String → Option String × Option String × Option String →
    Option String × Option String × Option String
  | [], evr => evr
  | l :: rest, evr =>
    let e := if evr.1.isNone && pyStartsWith "Epoch:" l then some (last_token l) else evr.1
    let v := if evr.2.1.isNone && pyStartsWith "Version:" l then some (last_token l) else evr.2.1
    let r := if evr.2.2.isNone && pyStartsWith "Release:" l then some (last_token l) else evr.2.2
    spec_evr_go rest (e, v, r)

/-- `rpmutil.spec_evr`. -/
def spec_evr (spec_file_data : List String) :
    Option String × Option String × Option String :=
  spec_evr_go spec_file_data (none, none, none)

/-- Python f-string rendering of a possibly-`None` value. -/
def py_str_opt (o : Option String) : String :=
  match o with
  | some s => s
  | none => "None"

/-- `Action.__skip_line`: on a spec file, changelog marker lines are
always skipped, and comment lines are skipped unless the first find
line is itself a comment. -/
def skip_line (target line : String) (find_lines : List String) : Bool :=
  if target == "specfile" then
    if spec_line_changelog line then true
    else if line_is_comment line && !line_is_comment (find_lines.headD "") then true
    else false
  else false

/-- `Action.__find_indent`: the leading-whitespace prefix of the line
(`line[:len(line) - len(line.lstrip())]`). -/
def find_indent (line : String) : String :=
  ⟨line.toList.takeWhile pyIsSpace⟩

/-- `Action.__apply_indent`: the first replacement line keeps its own
indentation, later non-blank lines are prefixed with the captured
indent. -/
def apply_indent (lines : List String) (starting : String) : List String :=
  match lines with
  | [] => []
  | first :: rest =>
    first :: rest.map (fun line => if py_strip line ≠ "" then starting ++ line else line)

/-- The string substituted for the matched find text inside
`__process_single_line`: `"\n".join(to_replace_lines)` when a
replacement list was selected, `""` when `to_replace_lines` stayed
`None` (delete-substring path). -/
def joined_repl (replace_lines : List String) (current_line find : String) : String :=
  if replace_lines.isEmpty then ""
  else if current_line == find then pyJoin "\n" replace_lines
  else pyJoin "\n" (apply_indent replace_lines (find_indent current_line))

/-- `Action.__process_single_line`.  Returns `(changed, counter, file)`
for the caller's `changed, counter` pair plus the mutated line list
(`file[i]` equals `current_line` at every call site, so the model
passes the current line explicitly).  `file.pop(i)` becomes
`file.eraseIdx i`. -/
def process_single_line (file : List String) (i : Nat) (current_line find : String)
    (replace_lines : List String) (counter : Nat) (count : Int) :
    Bool × Nat × List String :=
  let count_in_line := pyCount find current_line
  if 0 < count_in_line then
    if count ≠ -1 ∧ (counter : Int) ≥ count then (false, counter, file)
    else if replace_lines.isEmpty && (py_strip current_line == find) then
      (true, counter, file.eraseIdx i)
    else
      (true, counter + 1,
        file.set i (pyReplaceOne find (joined_repl replace_lines current_line find) current_line))
  else (false, counter, file)

/-- `Action.__process_single_line_regex`.  The Python `re` module is an
external library; every pattern the claims exercise is free of regex
metacharacters, so pattern search is modelled as literal substring
search and `re.sub(pattern, repl, line, curcount)` as literal
replacement of the first (`curcount = 1`) or all (`curcount = 0`)
occurrences.  Note that `counter` is returned unchanged. -/
def process_single_line_regex (file : List String) (i : Nat) (current_line pattern : String)
    (replace_lines : List String) (counter : Nat) (count : Int) :
    Bool × Nat × List String :=
  if 0 < pyCount pattern current_line then
    let replacer := if replace_lines.isEmpty then "" else pyJoin "\n" replace_lines
    let curcount : Nat := if count ≠ -1 then 1 else 0
    (true, counter,
      file.set i (if curcount == 1 then pyReplaceOne pattern replacer current_line
                  else pyReplaceAll pattern replacer current_line))
  else (false, counter, file)

/-- The stripped-block comparison of `Action.__process_multi_line`,
named so the no-match hypothesis of the claims can quote it. -/
def blockHitAt (find_lines file : List String) (i : Nat) : Bool :=
  ((file.drop i).take find_lines.length).map py_lstrip == find_lines.map py_lstrip

/-- `Action.__process_multi_line`.  `del file[i:i+n]` and the slice
assignment become `take`/`drop` surgery; the Python `i += len(...) - 1`
only updates a local variable and has no effect on the caller's index,
so it does not appear here. -/
def process_multi_line (file : List String) (i : Nat) (find_lines replace_lines : List String)
    (counter : Nat) (count : Int) : Bool × Nat × List String :=
  if blockHitAt find_lines file i then
    if count ≠ -1 ∧ (counter : Int) ≥ count then (false, counter, file)
    else if replace_lines.isEmpty then
      (true, counter + 1, file.take i ++ file.drop (i + find_lines.length))
    else
      let indent := find_indent (file.getD i "")
      (true, counter + 1,
        file.take i ++ replace_lines.map (fun l => indent ++ l) ++ file.drop (i + find_lines.length))
  else (false, counter, file)

/-- `Action.__finalize_changes`: if no line changed, raise `NotApplied`
naming the action (derived from the emptiness of `replace_lines`, as
in the source) and the find target; otherwise the mutated lines are
written back (`.ok`). -/
def finalize_changes (file : List String) (changes : Bool)
    (replace_lines find_lines : List String) : Except Err (List String) :=
  if !changes then
    .error (.notApplied (if replace_lines.isEmpty then "DeleteLine" else "SearchAndReplace")
      find_lines)
  else .ok file

/-- The `while i < len(file)` loop of `Action.data_processor`, with
explicit fuel (the Python loop can run forever when a multi-line
replacement block re-matches its own find block; no claim reaches that
regime, and `data_processor` passes fuel exceeding the iteration count
of every non-growing run).  Each iteration advances `i` by one, exactly
like the source, so a popped line's successor is skipped. -/
def dp_loop (target : String) (find_lines replace_lines : List String) (count : Int)
    (regex : Bool) : Nat → List String → Nat → Nat → Bool →
    Option (List String × Nat × Bool)
  | fuel, file, i, counter, changes =>
    if h : i < file.length then
      match fuel with
      | 0 => none
      | fuel + 1 =>
        let current_line := file.get ⟨i, h⟩
        if skip_line target current_line find_lines then
          dp_loop target find_lines replace_lines count regex fuel file (i + 1) counter changes
        else
          let res :=
            if find_lines.length == 1 then
              if regex then
                process_single_line_regex file i current_line (find_lines.headD "")
                  replace_lines counter count
              else
                process_single_line file i current_line (find_lines.headD "")
                  replace_lines counter count
            else process_multi_line file i find_lines replace_lines counter count
          dp_loop target find_lines replace_lines count regex fuel res.2.2 (i + 1) res.2.1
            (changes || res.1)
    else some (file, counter, changes)

/-- `Action.data_processor`: read the file, scan it, then finalize
(write back on change, `NotApplied` otherwise). -/
def data_processor (target : String) (find_lines replace_lines : List String)
    (count : Int) (regex : Bool) (file_on_disk : List String) : Except Err (List String) :=
  read_file_to_list file_on_disk >>= fun file =>
  match dp_loop target find_lines replace_lines count regex (file.length + 1) file 0 0 false with
  | none => .error .fuelExhausted
  | some res => finalize_changes res.1 res.2.2 replace_lines find_lines

/-- `SearchAndReplace.execute` after file-name resolution (the
`find_file_name` glob walk is filesystem work outside this model; the
resolved file's lines are the last argument). -/
def search_and_replace_execute (target find replace : String) (count : Int)
    (regex : Bool) (file : List String) : Except Err (List String) :=
  let lines := if pyContainsNL find then pySplitLines find else [find]
  let repl_lines := if pyContainsNL replace then pySplitLines replace else [replace]
  data_processor target lines repl_lines count regex file

/-- `RpmConstants.RpmSpecDirectives`. -/
inductive Directive where
  | PATCH
  | SOURCE
  deriving DecidableEq, Repr

/-- The `.value` string of a directive. -/
def Directive.value : Directive → String
  | .PATCH => "Patch"
  | .SOURCE => "Source"

/-- `RpmConstants.RpmSpecPatchTypes`. -/
inductive PatchType where
  | OBSOLETE
  | P_SPACE
  | P_NOSPACE
  | KERNEL
  | INC_FILE
  | AUTOSETUP
  deriving DecidableEq, Repr

/-- Python `list.insert(idx, x)` including its negative-index and
clamping semantics. -/
def pyInsert (l : List String) (idx : Int) (x : String) : List String :=
  let n : Int := l.length
  let j : Int := if idx < 0 then max (n + idx) 0 else min idx n
  l.take j.toNat ++ [x] ++ l.drop j.toNat

/-- Anchored regex `d([0-9]*):` of `get_last_directive`: the directive
name, a possibly empty greedy digit run, then a colon; the capture
group (digit string) is returned. -/
def matchDirective (d : String) (line : String) : Option String :=
  if d.toList.isPrefixOf line.toList then
    let rest := line.toList.drop d.toList.length
    let digits := rest.takeWhile Char.isDigit
    match rest.dropWhile Char.isDigit with
    | ':' :: _ => some ⟨digits⟩
    | _ => none
  else none

/-- Anchored regex `^d([0-9]+):` of `get_source_ids` (non-empty digit
run). -/
def matchIdDirective (d : String) (line : String) : Option Nat :=
  match matchDirective d line with
  | some g => if g.toList.isEmpty then none else some (natOfDigits g.toList)
  | none => none

/-- Anchored regex `^%endif\b`. -/
def is_endif_line (line : String) : Bool :=
  "%endif".toList.isPrefixOf line.toList &&
    (match line.toList.drop 6 with
     | [] => true
     | c :: _ => !(c.isAlphanum || c == '_'))

/-- Anchored regex `^%if*` of the source: `%i` followed by zero or more
`f`, so as a prefix match it accepts any line starting with `%i`. -/
def is_if_star_line (line : String) : Bool :=
  pyStartsWith "%i" line

/-- The scan loop of `get_last_directive`, breaking at the first
directive match (the data is already reversed by `add_new_source`, so
this is the last directive in file order).  Returns
`(last_number, last_idx, no_numbers, last_endif_idx)`. -/
def gld_loop (d : String) : List String → Int → Bool → Option Int →
    Option Int × Option Int × Bool × Option Int
  | [], _, _, lastEndif => (none, none, false, lastEndif)
  | line :: rest, i, conditional, lastEndif =>
    let st :=
      if is_endif_line line then (true, some (i - 1))
      else if is_if_star_line line && conditional then (false, lastEndif)
      else (conditional, lastEndif)
    match matchDirective d line with
    | some g =>
      let lastIdx : Option Int := if !st.1 then some i else none
      if g.toList.isEmpty then (some 0, lastIdx, true, st.2)
      else (some (Int.ofNat (natOfDigits g.toList)), lastIdx, false, st.2)
    | none => gld_loop d rest (i + 1) st.1 st.2

/-- `srpmproc.util.get_last_directive`.  On a reversed spec this finds
the last directive of the given type; when nothing was found, a
missing `Patch` is tolerated (warning) but a missing `Source` raises
`RpmParseError`. -/
def get_last_directive (spec_data : List String) (directive_type : Directive) :
    Except Err (Option Int × Option Int × Bool) :=
  let r := gld_loop directive_type.value spec_data 0 false none
  let lastNumber := r.1
  let lastIdx :=
    match r.2.1, r.2.2.2 with
    | none, some e => some e
    | li, _ => li
  match lastNumber with
  | none =>
    if directive_type = .PATCH then .ok (none, lastIdx, r.2.2.1)
    else .error (.rpmParse "Unable to parse, there was no directive found")
  | some _ => .ok (lastNumber, lastIdx, r.2.2.1)

/-- `srpmproc.util.get_source_ids`: `(patches, sources)` — the ids of
all `Patch<N>:` lines first, then all `Source<N>:` lines. -/
def get_source_ids (spec_data : List String) : List Int × List Int :=
  (spec_data.filterMap (fun l => (matchIdDirective "Patch" l).map Int.ofNat),
   spec_data.filterMap (fun l => (matchIdDirective "Source" l).map Int.ofNat))

/-- `srpmproc.util.get_patch_type_by_line` regexes, compiled by hand:
`^%patch[0-9]{1,5}`, `^%patch\s+-P\s+[0-9]{1,5}`,
`^%patch\s+-P[0-9]{1,5}`, `^(ApplyOptionalPatch|ApplyPatch)`. -/
def get_patch_type_by_line (line : String) : Option PatchType :=
  let cs := line.toList
  let afterPatch := cs.drop 6
  let hasPatchHead := "%patch".toList.isPrefixOf cs
  if hasPatchHead && (match afterPatch with | c :: _ => c.isDigit | [] => false) then
    some .OBSOLETE
  else if hasPatchHead &&
      (match afterPatch with | c :: _ => pyIsSpace c | [] => false) &&
      (let afterWs := afterPatch.dropWhile pyIsSpace
       "-P".toList.isPrefixOf afterWs &&
         (match afterWs.drop 2 with | c :: _ => pyIsSpace c | [] => false) &&
         (match (afterWs.drop 2).dropWhile pyIsSpace with
          | c :: _ => c.isDigit | [] => false)) then
    some .P_SPACE
  else if hasPatchHead &&
      (match afterPatch with | c :: _ => pyIsSpace c | [] => false) &&
      (let afterWs := afterPatch.dropWhile pyIsSpace
       "-P".toList.isPrefixOf afterWs &&
         (match afterWs.drop 2 with | c :: _ => c.isDigit | [] => false)) then
    some .P_NOSPACE
  else if pyStartsWith "ApplyOptionalPatch" line || pyStartsWith "ApplyPatch" line then
    some .KERNEL
  else none

/-- First line of the spec with a recognizable patch-apply syntax. -/
def first_patch_line : List String → Option PatchType
  | [] => none
  | l :: rest =>
    match get_patch_type_by_line l with
    | some t => some t
    | none => first_patch_line rest

/-- `srpmproc.util.get_patch_type`. -/
def get_patch_type (spec_data : List String) (package_name : String)
    (patch_file : Bool) : Option PatchType :=
  if package_name == "kernel" then some .KERNEL
  else if patch_file then some .INC_FILE
  else if spec_autosetup spec_data then some .AUTOSETUP
  else first_patch_line spec_data

/-- The scan loop of `get_patch_idx_insert`, carrying
`(conditional, start_idx, last_patch_idx)`. -/
def gpi_loop : List String → Int → Bool → Option Int → Option Int →
    Option Int × Option Int
  | [], _, _, startIdx, lastPatchIdx => (startIdx, lastPatchIdx)
  | line :: rest, i, conditional, startIdx, lastPatchIdx =>
    let st :=
      if lastPatchIdx.isNone && is_endif_line line then (true, some i)
      else if is_if_star_line line && conditional then
        (false, if lastPatchIdx.isNone then none else startIdx)
      else (conditional, startIdx)
    let lastPatch :=
      if lastPatchIdx.isNone && (get_patch_type_by_line line).isSome then some i
      else lastPatchIdx
    gpi_loop rest (i + 1) st.1 st.2 lastPatch

/-- `srpmproc.util.get_patch_idx_insert`. -/
def get_patch_idx_insert (spec_data : List String) : Option Int :=
  let r := gpi_loop spec_data 0 false none none
  if r.1.isSome then r.1 else r.2

/-- Anchored regex `^%setup\b`. -/
def is_setup_line (line : String) : Bool :=
  "%setup".toList.isPrefixOf line.toList &&
    (match line.toList.drop 6 with
     | [] => true
     | c :: _ => !(c.isAlphanum || c == '_'))

/-- The scan of `srpmproc.util.get_setup_line`. -/
def get_setup_line_go : List String → Int → Option Int
  | [], _ => none
  | l :: rest, i => if is_setup_line l then some i else get_setup_line_go rest (i + 1)

/-- `srpmproc.util.get_setup_line`. -/
def get_setup_line (spec_data : List String) : Option Int :=
  get_setup_line_go spec_data 0

/-- `srpmproc.util.generate_patch_line`; unknown (or `None`) patch
types raise `RpmParseError`. -/
def generate_patch_line (patch_name patch_number : String)
    (directive_type : Option PatchType) : Except Err String :=
  match directive_type with
  | some .OBSOLETE => .ok ("%patch" ++ patch_number ++ " -p1")
  | some .P_SPACE => .ok ("%patch -P " ++ patch_number ++ " -p1")
  | some .P_NOSPACE => .ok ("%patch -P" ++ patch_number ++ " -p1")
  | some .KERNEL => .ok ("ApplyPatch " ++ patch_name ++ ".patch")
  | _ => .error (.rpmParse "Unknown patch type")

/-- Python `''.join(source_name.split('.')[:-1])`: the name with its
last dot-suffix removed and the remaining dots deleted. -/
def stem_name (source_name : String) : String :=
  String.join ((source_name.splitOn ".").dropLast)

/-- `srpmproc.util.get_new_number`.  Note the unpacking
`current_source_ids, current_patch_ids = get_source_ids(spec_data)`:
`get_source_ids` returns `(patches, sources)`, so the two binders are
swapped with respect to their names, exactly as in the source.  A
`None` last number with `no_numbers` unset reproduces the Python
`None + 1` TypeError. -/
def get_new_number (spec_data : List String) (no_numbers : Bool)
    (directive_type : Directive) (last_number : Option Int) (source_number : Int) :
    Except Err String :=
  let ids := get_source_ids spec_data
  let current_source_ids := ids.1
  let current_patch_ids := ids.2
  if no_numbers then .ok ""
  else
    match last_number with
    | none => .error (.pythonTypeError "unsupported operand type NoneType + int")
    | some ln =>
      let conflict :=
        if source_number ≠ -1 then
          (directive_type == .PATCH && current_patch_ids.contains source_number) ||
          (directive_type == .SOURCE && current_source_ids.contains source_number)
        else false
      let new_number := if source_number ≠ -1 then pyStr source_number else pyStr (ln + 1)
      if conflict then
        .error (.rpmParse (directive_type.value ++ " " ++ pyStr source_number ++ " already exists."))
      else .ok new_number

/-- `srpmproc.util.add_patch_line`: insert the `%patch`/`ApplyPatch`
invocation before the nearest anchor, falling back to the `%setup`
line with a forced `P_SPACE` style, and failing when no anchor
exists.  `INC_FILE` skips the whole block; a final `None` patch type
raises (via `generate_patch_line`, as the Python call does before its
own final check can run). -/
def add_patch_line (spec_data : List String) (source_name : String)
    (patch_type : Option PatchType) (new_number : String) : Except Err (List String) :=
  if patch_type ≠ some .INC_FILE then
    match get_patch_idx_insert spec_data with
    | some insert_idx =>
      if patch_type ≠ some .AUTOSETUP then
        generate_patch_line (stem_name source_name) new_number patch_type >>= fun pl =>
        if patch_type.isNone then .error (.rpmParse "Unknown patch type...")
        else .ok (pyInsert spec_data insert_idx pl)
      else
        if patch_type.isNone then .error (.rpmParse "Unknown patch type...")
        else .ok spec_data
    | none =>
      if patch_type ≠ some .AUTOSETUP then
        match get_setup_line spec_data with
        | some idx =>
          generate_patch_line (stem_name source_name) new_number (some .P_SPACE) >>= fun pl =>
          .ok (pyInsert spec_data idx pl)
        | none => .error (.rpmParse "Unable to find a line where we can apply the patch")
      else
        if patch_type.isNone then .error (.rpmParse "Unknown patch type...")
        else .ok spec_data
  else .ok spec_data

/-- `srpmproc.util.add_new_source`: reverse the spec, find the last
directive, compute patch style and new number, insert the directive
line, optionally add the `%prep` patch line, and reverse back. -/
def add_new_source (spec_data : List String) (source_name : String)
    (directive_type : Directive) (package_name : String) (patch_file : Bool)
    (source_number : Int) : Except Err (List String) := do
  let rev := spec_data.reverse
  let r ← get_last_directive rev directive_type
  let last_number := r.1
  let last_idx := r.2.1
  let no_numbers := r.2.2
  let patch_type := get_patch_type rev package_name patch_file
  let new_number ← get_new_number rev no_numbers directive_type last_number source_number
  let rev ←
    match last_idx with
    | none => Except.error (Err.pythonTypeError "list indices must be integers")
    | some idx =>
      Except.ok (pyInsert rev idx (directive_type.value ++ new_number ++ ": " ++ source_name))
  let rev ←
    if directive_type == .PATCH && patch_type ≠ some .INC_FILE then
      add_patch_line rev source_name patch_type new_number
    else pure rev
  return rev.reverse

/-- Greedy line filling of `textwrap.wrap(entry, 80, initial_indent="- ",
subsequent_indent="  ")`.  Modelled from the stdlib's greedy algorithm
for whitespace-separated words; hyphen splitting and mid-word breaking
of over-long words (never exercised by changelog entries here) are not
modelled. -/
def wrap_fill : String → List String → List String
  | cur, [] => [cur]
  | cur, w :: ws =>
    if (cur ++ " " ++ w).length ≤ 80 then wrap_fill (cur ++ " " ++ w) ws
    else cur :: wrap_fill ("  " ++ w) ws

/-- `textwrap.wrap(entry, 80, initial_indent="- ", subsequent_indent="  ")`. -/
def py_wrap (entry : String) : List String :=
  match py_words entry with
  | [] => []
  | w :: ws => wrap_fill ("- " ++ w) ws

/-- The `full_version` computed inside `SpecChangelog.execute` from the
EVR of the externally parsed spec: `version-release`, epoch-prefixed
when an epoch exists (Python's f-string renders a missing value as
`"None"`). -/
def full_version_of (parsed : List String) : String :=
  let evr := spec_evr parsed
  let core := py_str_opt evr.2.1 ++ "-" ++ py_str_opt evr.2.2
  match evr.1 with
  | none => core
  | some ep => ep ++ ":" ++ core

/-- The `change_meta` header line of `SpecChangelog.execute`. -/
def changelog_meta (today name email : String) (parsed : List String) : String :=
  "* " ++ today ++ " " ++ name ++ " <" ++ email ++ "> - " ++ full_version_of parsed

/-- The single body string inserted by `SpecChangelog.execute`:
`"\n".join(changelog_info_lines) + "\n"` for a first (accumulator
still empty) `%changelog` match. -/
def changelog_body (line : List String) : String :=
  pyJoin "\n" ((line.map py_wrap).flatten) ++ "\n"

/-- The `for c, l in enumerate(file)` insertion scan of
`SpecChangelog.execute`.  Python enumerates the live list, so after
inserting at `c+1` and `c+2` the cursor passes over the two new lines
before reaching the old tail; since the header always begins with
`"* "` and the body always ends with a newline, neither can equal
`"%changelog"`, and emitting them directly is equivalent.  The
`changelog_info_lines` accumulator persists across matches (so a
second marker line receives the wrapped entries twice), hence the
`acc` argument. -/
def cl_scan (change_meta : String) (wrapped : List String) :
    List String → List String → List String
  | _, [] => []
  | acc, l :: rest =>
    if l == "%changelog" then
      let acc2 := acc ++ wrapped
      let body := pyJoin "\n" acc2 ++ "\n"
      l :: change_meta :: body :: cl_scan change_meta wrapped acc2 rest
    else l :: cl_scan change_meta wrapped acc rest

/-- `SpecChangelog.execute` on the resolved spec file: re-read the
file, skip silently under `%autochangelog`, otherwise insert the
header and wrapped body after every `%changelog` marker and write the
result back.  `parsed` is the external `rpmutil.spec_parse` output and
`today` the formatted current date. -/
def spec_changelog_execute (name email : String) (line parsed : List String)
    (today : String) (file_on_disk : List String) : Except Err (List String) :=
  read_file_to_list file_on_disk >>= fun file =>
  if spec_autochangelog file then .ok file
  else
    let change_meta := changelog_meta today name email parsed
    let wrapped := (line.map py_wrap).flatten
    .ok (cl_scan change_meta wrapped [] file)

/-- An action sitting in the `ActionQueue`: a `SpecChangelog` with its
parameters, or any other action abstracted as the file transformation
its `execute` performs. -/
inductive QueuedAction where
  | specChangelog (name email : String) (line : List String)
  | other (transform : List String → Except Err (List String))

/-- The `isinstance(action, SpecChangelog)` test of `execute_all`. -/
def QueuedAction.isSpecChangelog : QueuedAction → Bool
  | .specChangelog .. => true
  | .other _ => false

/-- One `action.execute(package_path)` step at the spec-file level. -/
def execute_action (parsed : List String) (today : String) :
    QueuedAction → List String → Except Err (List String)
  | .specChangelog n e l, file => spec_changelog_execute n e l parsed today file
  | .other t, file => t file

/-- Sequential execution of a list of actions, threading the spec file
(each `SpecChangelog.execute` re-reads what the previous action
wrote); the first exception aborts the rest. -/
def run_queue (parsed : List String) (today : String) :
    List QueuedAction → List String → Except Err (List String)
  | [], file => .ok file
  | a :: rest, file => execute_action parsed today a file >>= run_queue parsed today rest

/-- `ActionQueue.execute_all`: partition the queue into `SpecChangelog`
actions and everything else (both in insertion order), run everything
else first, then the changelog actions in reversed order. -/
def execute_all (parsed : List String) (today : String) (queue : List QueuedAction)
    (file : List String) : Except Err (List String) :=
  let spec_changelog_actions := queue.filter QueuedAction.isSpecChangelog
  let everything_else := queue.filter (fun a => !a.isSpecChangelog)
  run_queue parsed today (everything_else ++ spec_changelog_actions.reverse) file

/-- Package-directory state visible to `DeleteFile.execute`: whether
the named file exists in the tree, whether the package metadata file
exists, and the metadata file's lines. -/
structure PackageFs where
  target_on_disk : Bool
  metadata_on_disk : Bool
  metadata_lines : List String
  deriving DecidableEq, Repr

/-- Regex `[0-9a-f]+\s+filename` of `DeleteFile.__delete_from_metadata`
(the filename is interpolated into the pattern; its own regex
metacharacters are treated literally here, which coincides for the
names the claims use). -/
def metadata_line_matches (filename line : String) : Bool :=
  let cs := line.toList
  let isHexLower := fun (c : Char) => c.isDigit || ('a' ≤ c && c ≤ 'f')
  (match cs with | c :: _ => isHexLower c | [] => false) &&
    (let r1 := cs.dropWhile isHexLower
     (match r1 with | c :: _ => pyIsSpace c | [] => false) &&
       filename.toList.isPrefixOf (r1.dropWhile pyIsSpace))

/-- `DeleteFile.__delete_from_metadata`: the `raise` sits inside the
loop body after the `if .. break`, so unless the *first* metadata line
matches (in which case it is deleted), the call raises `NotApplied`;
an empty metadata list returns unchanged. -/
def delete_from_metadata (filename : String) (metadata : List String) :
    Except Err (List String) :=
  match metadata with
  | [] => .ok []
  | line :: rest =>
    if metadata_line_matches filename line then .ok rest
    else .error (.notApplied "DeleteFile" [filename])

/-- `DeleteFile.execute`: raise when the metadata file is missing, read
it, unlink the target only when it exists (`Path.unlink` on an
existing file does not raise `FileNotFoundError`, so the
`delete_from_metadata` handler in the `except` clause is unreachable
short of a filesystem race), then write the metadata lines back
unchanged. -/
def delete_file_execute (_filename : String) (st : PackageFs) : Except Err PackageFs :=
  if !st.metadata_on_disk then .error (.fileNotFound "metadata file not found")
  else
    read_file_to_list st.metadata_lines >>= fun metadata_file_data =>
    let st := if st.target_on_disk then { st with target_on_disk := false } else st
    .ok { st with metadata_lines := metadata_file_data }

/-- A parsed YAML value (`yaml.safe_load` output), sufficient for the
patch configs the editor accepts. -/
inductive YVal where
  | null
  | s (v : String)
  | b (v : Bool)
  | i (v : Int)
  | list (xs : List YVal)
  | dict (kvs : List (String × YVal))

/-- Python truthiness of a YAML value. -/
def yTruthy : YVal → Bool
  | .null => false
  | .s v => v ≠ ""
  | .b v => v
  | .i v => v ≠ 0
  | .list xs => !xs.isEmpty
  | .dict kvs => !kvs.isEmpty

/-- Python `"patch" in loaded_config`: key membership for a mapping,
element membership for a sequence, substring test for a string;
other operand types raise TypeError in Python and are not modelled
(no claim reaches them). -/
def yHasPatch : YVal → Bool
  | .dict kvs => kvs.any (fun kv => kv.1 == "patch")
  | .list xs => xs.any (fun x => match x with | .s "patch" => true | _ => false)
  | .s v => 0 < pyCount "patch" v
  | _ => false

/-- `isinstance(x, t)` for the four schema types; Python's `bool` is a
subclass of `int`, so a boolean passes an `int` check. -/
inductive PType where
  | str
  | bool
  | int
  | list
  deriving DecidableEq, Repr

/-- `isinstance` test. -/
def yIsInstance : YVal → PType → Bool
  | .s _, .str => true
  | .b _, .bool => true
  | .b _, .int => true
  | .i _, .int => true
  | .list _, .list => true
  | _, _ => false

/-- `value in [None, "", [], {}]` of `Action.validate`. -/
def yIsEmptyVal : YVal → Bool
  | .null => true
  | .s "" => true
  | .list [] => true
  | .dict [] => true
  | _ => false

/-- Shape tests used to state the claims. -/
def YVal.isDict : YVal → Bool
  | .dict _ => true
  | _ => false

/-- List shape test. -/
def YVal.isList : YVal → Bool
  | .list _ => true
  | _ => false

/-- An action's key schema (`required_keys` / `allowed_keys`). -/
structure ActionSchema where
  requiredKeys : List String
  allowedKeys : List (String × PType)

/-- `SearchAndReplace` schema. -/
def search_and_replace_schema : ActionSchema :=
  ⟨["target", "find", "replace"],
   [("target", .str), ("find", .str), ("regex", .bool), ("replace", .str), ("count", .int)]⟩

/-- `DeleteLine` schema. -/
def delete_line_schema : ActionSchema :=
  ⟨["target", "lines"], [("target", .str), ("lines", .list)]⟩

/-- `AppendRelease` schema. -/
def append_release_schema : ActionSchema :=
  ⟨["suffix", "enabled"], [("suffix", .str), ("enabled", .bool)]⟩

/-- `SpecChangelog` schema. -/
def spec_changelog_schema : ActionSchema :=
  ⟨["name", "email", "line"], [("name", .str), ("email", .str), ("line", .list)]⟩

/-- `AddFile` schema. -/
def add_file_schema : ActionSchema :=
  ⟨["type", "name", "number"],
   [("type", .str), ("name", .str), ("source_name", .str), ("number", .str),
    ("add_to_spec", .bool), ("upload", .bool)]⟩

/-- `DeleteFile` schema. -/
def delete_file_schema : ActionSchema :=
  ⟨["filename"], [("filename", .str)]⟩

/-- `ReplaceFile` schema: note that `upload` is *not* an allowed key;
only `upload_to_lookaside` is. -/
def replace_file_schema : ActionSchema :=
  ⟨["filename"],
   [("filename", .str), ("source_filename", .str), ("upload_to_lookaside", .bool)]⟩

/-- `ApplyScript` schema. -/
def apply_script_schema : ActionSchema :=
  ⟨["script"], [("script", .str)]⟩

/-- `ApplyPatch` schema. -/
def apply_patch_schema : ActionSchema :=
  ⟨["filename"], [("filename", .str)]⟩

/-- The `Config.ACTIONS` registration table (name → schema). -/
def ACTIONS : List (String × ActionSchema) :=
  [("append_release", append_release_schema),
   ("apply_patch", apply_patch_schema),
   ("apply_script", apply_script_schema),
   ("add_file", add_file_schema),
   ("delete_file", delete_file_schema),
   ("delete_line", delete_line_schema),
   ("replace_file", replace_file_schema),
   ("search_and_replace", search_and_replace_schema),
   ("spec_changelog", spec_changelog_schema)]

/-- The per-key loop of `Action.validate`: for each allowed key present
in the data, check the declared type then non-emptiness. -/
def check_types : List (String × PType) → List (String × YVal) → Except Err Unit
  | [], _ => .ok ()
  | (key, expected) :: rest, data =>
    match List.lookup key data with
    | some v =>
      if !yIsInstance v expected then
        .error (.patchConfigType ("Invalid type for " ++ key))
      else if yIsEmptyVal v then
        .error (.patchConfigValue ("Invalid data for " ++ key ++ ": Value cannot be empty."))
      else check_types rest data
    | none => check_types rest data

/-- `Action.validate`: required keys present, no unexpected keys, then
types and emptiness (the Python `unexpected` branch formats the wrong
variable into its message, but still raises `PatchConfigValueError`;
messages are abstracted here). -/
def action_validate (schema : ActionSchema) (data : List (String × YVal)) :
    Except Err Unit :=
  let keys := data.map Prod.fst
  let missing := schema.requiredKeys.filter (fun k => !keys.contains k)
  if !missing.isEmpty then .error (.patchConfigValue "Missing keys")
  else
    let allowed := schema.allowedKeys.map Prod.fst
    let unexpected := keys.filter (fun k => !allowed.contains k)
    if !unexpected.isEmpty then .error (.patchConfigValue "Unexpected keys")
    else check_types schema.allowedKeys data

/-- `AddFile.validate`'s extra check: `data["type"]` must be `patch` or
`source` (a missing key would be a Python KeyError, a non-string never
equals a member of the set and raises the type error). -/
def add_file_extra_validate (data : List (String × YVal)) : Except Err Unit :=
  match List.lookup "type" data with
  | none => .error (.pythonTypeError "KeyError: type")
  | some (.s t) =>
    if t == "patch" || t == "source" then .ok ()
    else .error (.patchConfigType "Invalid config: Must be one of valid_types")
  | some _ => .error (.patchConfigType "Invalid config: Must be one of valid_types")

/-- A validated action instance: its registered name and parameters. -/
def ConfigAction := String × List (String × YVal)

/-- Constructing one Action: look the class up in `ACTIONS`, run
`Action.validate` (plus `AddFile`'s refinement). -/
def instantiate_action (name : String) (data : List (String × YVal)) :
    Except Err ConfigAction :=
  match List.lookup name ACTIONS with
  | none => .error (.pythonTypeError "NoneType object is not callable")
  | some schema =>
    action_validate schema data >>= fun _ =>
    (if name == "add_file" then add_file_extra_validate data else .ok ()) >>= fun _ =>
    .ok (name, data)

/-- The `for patch_data in patch_action_list` instantiation loop; each
entry must be a mapping (anything else crashes in `Action.validate`
when `.keys()` is taken). -/
def instantiate_list (name : String) : List YVal → Except Err (List ConfigAction)
  | [] => .ok []
  | .dict kv :: rest => do
    let a ← instantiate_action name kv
    let as ← instantiate_list name rest
    return a :: as
  | _ :: _ => .error (.pythonAttributeError "object has no attribute keys")

/-- The `for patch_action_name, patch_action_list in patch_dict.items()`
instantiation loop. -/
def instantiate_dict : List (String × YVal) → Except Err (List ConfigAction)
  | [] => .ok []
  | (name, val) :: rest => do
    let a1 ←
      match val with
      | .list ds => instantiate_list name ds
      | _ => .error (.pythonTypeError "object is not iterable")
    let a2 ← instantiate_dict rest
    return a1 ++ a2

/-- The `for patch_dict in loaded_config.get("patch", [])`
instantiation loop of `Config.__process_config`. -/
def instantiate_entries : List YVal → Except Err (List ConfigAction)
  | [] => .ok []
  | .dict kvs :: rest => do
    let a1 ← instantiate_dict kvs
    let a2 ← instantiate_entries rest
    return a1 ++ a2
  | _ :: _ => .error (.pythonAttributeError "object has no attribute items")

/-- One name/shape check of `Config.__validate_config`: the action
name must be registered (a falsy `ACTIONS.get` raises the value
error) and the action's parameter collection must be a list. -/
def check_action_pair (name : String) (val : YVal) : Except Err Unit :=
  match List.lookup name ACTIONS with
  | none => .error (.patchConfigValue ("Unknown Action: " ++ name ++ " is not a valid action."))
  | some _ =>
    match val with
    | .list _ => .ok ()
    | _ => .error (.patchConfigType ("Wrong format: " ++ name ++ " is not a list."))

/-- The inner `for patch_action_name, patch_action_list in
patch_dict.items()` loop of `Config.__validate_config`. -/
def check_action_dict : List (String × YVal) → Except Err Unit
  | [] => .ok ()
  | (name, val) :: rest => check_action_pair name val >>= fun _ => check_action_dict rest

/-- The outer `for patch_dict in loaded_config.get("patch", [])` loop
of `Config.__validate_config` (non-mapping entries crash on
`.items()`). -/
def check_action_entries : List YVal → Except Err Unit
  | [] => .ok ()
  | .dict kvs :: rest => check_action_dict kvs >>= fun _ => check_action_entries rest
  | _ :: _ => .error (.pythonAttributeError "object has no attribute items")

/-- `Config.__validate_config`: top-level truthiness and `patch`
membership, the `patch` value must be a non-`None` list, then every
entry's action names and shapes are checked. -/
def validate_config (cfg : YVal) : Except Err Unit :=
  if !yTruthy cfg || !yHasPatch cfg then
    .error (.patchConfigValue "Invalid config: Missing patch configuration or configuration is empty")
  else
    match cfg with
    | .dict kvs =>
      match List.lookup "patch" kvs with
      | none => .error (.patchConfigValue "Invalid config: Actions section cannot be None")
      | some .null => .error (.patchConfigValue "Invalid config: Actions section cannot be None")
      | some (.list entries) => check_action_entries entries
      | some _ => .error (.patchConfigType "Invalid config: Patch data is not a list of dicts")
    | _ => .error (.pythonAttributeError "object has no attribute get")

/-- `loaded_config.get("patch", [])` as used by the instantiation loop
(after validation the value is always a list). -/
def patch_entries (cfg : YVal) : List YVal :=
  match cfg with
  | .dict kvs =>
    match List.lookup "patch" kvs with
    | some (.list l) => l
    | _ => []
  | _ => []

/-- `Config.__process_config` after the external YAML load: validate
the whole document first, and only then instantiate (and thereby
`Action.validate`) each action.  An `.error` result means no Action
object was ever constructed and nothing was executed. -/
def process_config (cfg : YVal) : Except Err (List ConfigAction) :=
  validate_config cfg >>= fun _ => instantiate_entries (patch_entries cfg)

/-- Whether an error is one of the two configuration-error kinds that
`Config.__validate_config` raises. -/
def Err.isConfigError : Err → Bool
  | .patchConfigValue _ => true
  | .patchConfigType _ => true
  | _ => false

/-- A `patch` entry that claim C4 calls structurally invalid: a mapping
holding an unknown action name or a non-list parameter collection. -/
def bad_pair (nv : String × YVal) : Bool :=
  (List.lookup nv.1 ACTIONS).isNone || !nv.2.isList

/-- Entry-level version of `bad_pair`. -/
def bad_entry : YVal → Bool
  | .dict kvs => kvs.any bad_pair
  | _ => false

/-- The copy-vs-lookaside branch decision of `ReplaceFile.execute`:
`upload_to_lookaside = self.data.get('upload', False)`. -/
inductive CopyBranch where
  | lookaside
  | copy
  deriving DecidableEq, Repr

/-- Branch taken by `ReplaceFile.execute` for given parameters. -/
def replace_file_branch (data : List (String × YVal)) : CopyBranch :=
  let upload_to_lookaside := (List.lookup "upload" data).getD (YVal.b false)
  if yTruthy upload_to_lookaside then .lookaside else .copy

/-- Proof view of `dp_loop` for an exact single-line rule.  The Python
index `i` always equals the number of lines already behind the cursor,
and every mutation of `__process_single_line` touches only `file[i]`,
so the loop state can be split into the processed prefix and the
remaining suffix; `dp_single_todo` computes on the suffix.  The
`eraseIdx` (pop) case consumes two lines: the popped one disappears
and its successor slides under the already-incremented cursor
unexamined.  `dp_loop_eq_todo` below proves the correspondence. -/
def dp_single_todo (target find : String) (replace_lines : List String) (count : Int) :
    List String → Nat → Bool → List String × Nat × Bool
  | [], counter, changes => ([], counter, changes)
  | l :: rest, counter, changes =>
    if skip_line target l [find] then
      let r := dp_single_todo target find replace_lines count rest counter changes
      (l :: r.1, r.2)
    else if 0 < pyCount find l then
      if count ≠ -1 ∧ (counter : Int) ≥ count then
        let r := dp_single_todo target find replace_lines count rest counter (changes || false)
        (l :: r.1, r.2)
      else if replace_lines.isEmpty && (py_strip l == find) then
        match rest with
        | [] => ([], counter, changes || true)
        | x :: xs =>
          let r := dp_single_todo target find replace_lines count xs counter (changes || true)
          (x :: r.1, r.2)
      else
        let nl := pyReplaceOne find (joined_repl replace_lines l find) l
        let r := dp_single_todo target find replace_lines count rest (counter + 1) (changes || true)
        (nl :: r.1, r.2)
    else
      let r := dp_single_todo target find replace_lines count rest counter (changes || false)
      (l :: r.1, r.2)

/-- Statement helper for the unmatched-rule claim: whether the rule's
find target hits anywhere in the file, phrased with exactly the
conditions `data_processor`'s branches test (substring presence for
single-line rules in either mode, the stripped-block comparison for
multi-line rules). -/
def rule_hits (find_lines file : List String) : Bool :=
  if find_lines.length == 1 then
    file.any (fun l => 0 < pyCount (find_lines.headD "") l)
  else
    (List.range file.length).any (fun i => blockHitAt find_lines file i)

@[simp]
theorem except_bind_ok {α β : Type} (a : α) (f : α → Except Err β) :
    (Except.ok a >>= f) = f a := rfl

@[simp]
theorem except_bind_err {α β : Type} (e : Err) (f : α → Except Err β) :
    ((Except.error e : Except Err α) >>= f) = Except.error e := rfl

@[simp]
theorem except_pure_eq {α : Type} (a : α) : (pure a : Except Err α) = Except.ok a := rfl

theorem list_get_append_len (a b : List String) (x : String)
    (h : a.length < (a ++ x :: b).length) :
    (a ++ x :: b).get ⟨a.length, h⟩ = x := by
  induction a with
  | nil => rfl
  | cons hd tl ih => simpa using ih (by simp)

theorem list_set_append_len (a b : List String) (x y : String) :
    (a ++ x :: b).set a.length y = a ++ y :: b := by
  induction a with
  | nil => rfl
  | cons hd tl ih => simp [ih]

theorem list_erase_append_len (a b : List String) (x : String) :
    (a ++ x :: b).eraseIdx a.length = a ++ b := by
  induction a with
  | nil => rfl
  | cons hd tl ih => simp [ih]

theorem dp_loop_done (t : String) (fl rl : List String) (c : Int) (r : Bool)
    (fuel : Nat) (file : List String) (i counter : Nat) (changes : Bool)
    (h : ¬ i < file.length) :
    dp_loop t fl rl c r fuel file i counter changes = some (file, counter, changes) := by
  rw [dp_loop]
  simp [h]

theorem dp_loop_skip (t : String) (fl rl : List String) (c : Int) (r : Bool)
    (fuel : Nat) (file : List String) (i counter : Nat) (changes : Bool)
    (h : i < file.length) (hs : skip_line t (file.get ⟨i, h⟩) fl = true) :
    dp_loop t fl rl c r (fuel + 1) file i counter changes
      = dp_loop t fl rl c r fuel file (i + 1) counter changes := by
  have hs' : skip_line t file[i] fl = true := hs
  rw [dp_loop]
  simp [h, hs']

theorem dp_loop_single_exact (t find : String) (rl : List String) (c : Int)
    (fuel : Nat) (file : List String) (i counter : Nat) (changes : Bool)
    (h : i < file.length) (hs : skip_line t (file.get ⟨i, h⟩) [find] = false) :
    dp_loop t [find] rl c false (fuel + 1) file i counter changes
      = (let res := process_single_line file i (file.get ⟨i, h⟩) find rl counter c
         dp_loop t [find] rl c false fuel res.2.2 (i + 1) res.2.1 (changes || res.1)) := by
  have hs' : skip_line t file[i] [find] = false := hs
  rw [dp_loop]
  simp [h, hs']

theorem psl_nohit (file : List String) (i : Nat) (cur find : String) (rl : List String)
    (counter : Nat) (c : Int) (h : ¬ 0 < pyCount find cur) :
    process_single_line file i cur find rl counter c = (false, counter, file) := by
  simp [process_single_line, h]

theorem psl_gate (file : List String) (i : Nat) (cur find : String) (rl : List String)
    (counter : Nat) (c : Int) (hhit : 0 < pyCount find cur)
    (hg : c ≠ -1 ∧ (counter : Int) ≥ c) :
    process_single_line file i cur find rl counter c = (false, counter, file) := by
  simp [process_single_line, hhit, hg]

theorem psl_pop (file : List String) (i : Nat) (cur find : String) (rl : List String)
    (counter : Nat) (c : Int) (hhit : 0 < pyCount find cur)
    (hg : ¬ (c ≠ -1 ∧ (counter : Int) ≥ c))
    (hp : (rl.isEmpty && (py_strip cur == find)) = true) :
    process_single_line file i cur find rl counter c = (true, counter, file.eraseIdx i) := by
  simp [process_single_line, hhit, hg, hp]

theorem psl_repl (file : List String) (i : Nat) (cur find : String) (rl : List String)
    (counter : Nat) (c : Int) (hhit : 0 < pyCount find cur)
    (hg : ¬ (c ≠ -1 ∧ (counter : Int) ≥ c))
    (hp : (rl.isEmpty && (py_strip cur == find)) = false) :
    process_single_line file i cur find rl counter c
      = (true, counter + 1, file.set i (pyReplaceOne find (joined_repl rl cur find) cur)) := by
  simp [process_single_line, hhit, hg, hp]


theorem dpst_nil (t find : String) (rl : List String) (c : Int) (counter : Nat) (changes : Bool) :
    dp_single_todo t find rl c [] counter changes = ([], counter, changes) := by
  rw [dp_single_todo.eq_def]

theorem dpst_skip (t find : String) (rl : List String) (c : Int) (l : String)
    (rest : List String) (counter : Nat) (changes : Bool)
    (hs : skip_line t l [find] = true) :
    dp_single_todo t find rl c (l :: rest) counter changes
      = (l :: (dp_single_todo t find rl c rest counter changes).1,
         (dp_single_todo t find rl c rest counter changes).2) := by
  rw [dp_single_todo.eq_def]
  simp [hs]

theorem dpst_nohit (t find : String) (rl : List String) (c : Int) (l : String)
    (rest : List String) (counter : Nat) (changes : Bool)
    (hs : skip_line t l [find] = false) (hhit : ¬ 0 < pyCount find l) :
    dp_single_todo t find rl c (l :: rest) counter changes
      = (l :: (dp_single_todo t find rl c rest counter changes).1,
         (dp_single_todo t find rl c rest counter changes).2) := by
  rw [dp_single_todo.eq_def]
  simp [hs, hhit]

theorem dpst_gate (t find : String) (rl : List String) (c : Int) (l : String)
    (rest : List String) (counter : Nat) (changes : Bool)
    (hs : skip_line t l [find] = false) (hhit : 0 < pyCount find l)
    (hg : c ≠ -1 ∧ (counter : Int) ≥ c) :
    dp_single_todo t find rl c (l :: rest) counter changes
      = (l :: (dp_single_todo t find rl c rest counter changes).1,
         (dp_single_todo t find rl c rest counter changes).2) := by
  rw [dp_single_todo.eq_def]
  simp [hs, hhit, hg]

theorem dpst_pop_nil (t find : String) (rl : List String) (c : Int) (l : String)
    (counter : Nat) (changes : Bool)
    (hs : skip_line t l [find] = false) (hhit : 0 < pyCount find l)
    (hg : ¬ (c ≠ -1 ∧ (counter : Int) ≥ c))
    (hp : (rl.isEmpty && (py_strip l == find)) = true) :
    dp_single_todo t find rl c [l] counter changes = ([], counter, true) := by
  rw [dp_single_todo.eq_def]
  simp [hs, hhit, hg, hp]

theorem dpst_pop_cons (t find : String) (rl : List String) (c : Int) (l x : String)
    (xs : List String) (counter : Nat) (changes : Bool)
    (hs : skip_line t l [find] = false) (hhit : 0 < pyCount find l)
    (hg : ¬ (c ≠ -1 ∧ (counter : Int) ≥ c))
    (hp : (rl.isEmpty && (py_strip l == find)) = true) :
    dp_single_todo t find rl c (l :: x :: xs) counter changes
      = (x :: (dp_single_todo t find rl c xs counter true).1,
         (dp_single_todo t find rl c xs counter true).2) := by
  rw [dp_single_todo.eq_def]
  simp [hs, hhit, hg, hp]

theorem dpst_repl (t find : String) (rl : List String) (c : Int) (l : String)
    (rest : List String) (counter : Nat) (changes : Bool)
    (hs : skip_line t l [find] = false) (hhit : 0 < pyCount find l)
    (hg : ¬ (c ≠ -1 ∧ (counter : Int) ≥ c))
    (hp : (rl.isEmpty && (py_strip l == find)) = false) :
    dp_single_todo t find rl c (l :: rest) counter changes
      = (pyReplaceOne find (joined_repl rl l find) l
           :: (dp_single_todo t find rl c rest (counter + 1) true).1,
         (dp_single_todo t find rl c rest (counter + 1) true).2) := by
  rw [dp_single_todo.eq_def]
  simp [hs, hhit, hg, hp]

theorem dp_loop_eq_todo (t find : String) (rl : List String) (c : Int) :
    ∀ (n : Nat) (todo : List String), todo.length ≤ n →
    ∀ (done : List String) (fuel counter : Nat) (changes : Bool), todo.length ≤ fuel →
    dp_loop t [find] rl c false fuel (done ++ todo) done.length counter changes
      = some (done ++ (dp_single_todo t find rl c todo counter changes).1,
              (dp_single_todo t find rl c todo counter changes).2) := by
  intro n
  induction n with
  | zero =>
    intro todo hlen done fuel counter changes _
    have hnil : todo = [] := List.length_eq_zero.mp (Nat.le_zero.mp hlen)
    subst hnil
    rw [dpst_nil]
    simpa using dp_loop_done t [find] rl c false fuel done done.length counter changes
      (by simp)
  | succ n ih =>
    intro todo hlen done fuel counter changes hfuel
    match todo, hlen, hfuel with
    | [], hlen, hfuel =>
      rw [dpst_nil]
      simpa using dp_loop_done t [find] rl c false fuel done done.length counter changes
        (by simp)
    | l :: rest, hlen, hfuel =>
      have hlt : done.length < (done ++ l :: rest).length := by simp
      match fuel, hfuel with
      | f + 1, hfuel =>
        have hget : (done ++ l :: rest).get ⟨done.length, hlt⟩ = l :=
          list_get_append_len done rest l hlt
        have hrestf : rest.length ≤ f := by simpa using hfuel
        have hrestn : rest.length ≤ n := by simpa using hlen
        by_cases hs : skip_line t l [find] = true
        · rw [dp_loop_skip t [find] rl c false f _ _ _ _ hlt (by rw [hget]; exact hs)]
          rw [dpst_skip t find rl c l rest counter changes hs]
          have := ih rest hrestn (done ++ [l]) f counter changes hrestf
          simpa using this
        · have hs' : skip_line t l [find] = false := by simpa using hs
          rw [dp_loop_single_exact t find rl c f _ _ _ _ hlt (by rw [hget]; exact hs')]
          rw [hget]
          by_cases hhit : 0 < pyCount find l
          · by_cases hg : c ≠ -1 ∧ (counter : Int) ≥ c
            · simp only [psl_gate _ _ _ _ _ _ _ hhit hg]
              rw [dpst_gate t find rl c l rest counter changes hs' hhit hg]
              have := ih rest hrestn (done ++ [l]) f counter changes hrestf
              simpa using this
            · by_cases hp : (rl.isEmpty && (py_strip l == find)) = true
              · simp only [psl_pop _ _ _ _ _ _ _ hhit hg hp]
                match rest, hrestn, hrestf with
                | [], _, _ =>
                  rw [dpst_pop_nil t find rl c l counter changes hs' hhit hg hp]
                  simpa [list_erase_append_len] using
                    dp_loop_done t [find] rl c false f done (done.length + 1) counter
                      (changes || true) (by simp)
                | x :: xs, hxn, hxf =>
                  rw [dpst_pop_cons t find rl c l x xs counter changes hs' hhit hg hp]
                  have := ih xs (Nat.le_of_succ_le hxn) (done ++ [x]) f counter
                    true (Nat.le_of_succ_le hxf)
                  simpa [list_erase_append_len] using this
              · have hp' : (rl.isEmpty && (py_strip l == find)) = false := by simpa using hp
                simp only [psl_repl _ _ _ _ _ _ _ hhit hg hp']
                rw [dpst_repl t find rl c l rest counter changes hs' hhit hg hp']
                have := ih rest hrestn
                  (done ++ [pyReplaceOne find (joined_repl rl l find) l])
                  f (counter + 1) true hrestf
                simpa [list_set_append_len] using this
          · simp only [psl_nohit _ _ _ _ _ _ _ hhit]
            rw [dpst_nohit t find rl c l rest counter changes hs' hhit]
            have := ih rest hrestn (done ++ [l]) f counter changes hrestf
            simpa using this

theorem dpst_prefix_nohit (t find : String) (rl : List String) (c : Int) :
    ∀ (pre todo : List String) (counter : Nat) (changes : Bool),
    (∀ l ∈ pre, pyCount find l = 0) →
    dp_single_todo t find rl c (pre ++ todo) counter changes
      = (pre ++ (dp_single_todo t find rl c todo counter changes).1,
         (dp_single_todo t find rl c todo counter changes).2) := by
  intro pre
  induction pre with
  | nil => intro todo counter changes _; simp
  | cons hd tl ih =>
    intro todo counter changes hno
    have hhd : pyCount find hd = 0 := hno hd (by simp)
    have htl : ∀ l ∈ tl, pyCount find l = 0 := fun l hl => hno l (by simp [hl])
    by_cases hs : skip_line t hd [find] = true
    · rw [List.cons_append, dpst_skip t find rl c hd (tl ++ todo) counter changes hs,
        ih todo counter changes htl]
      simp
    · rw [List.cons_append,
        dpst_nohit t find rl c hd (tl ++ todo) counter changes (by simpa using hs)
          (by omega),
        ih todo counter changes htl]
      simp

theorem pslr_nohit (file : List String) (i : Nat) (cur pattern : String) (rl : List String)
    (counter : Nat) (c : Int) (h : ¬ 0 < pyCount pattern cur) :
    process_single_line_regex file i cur pattern rl counter c = (false, counter, file) := by
  simp [process_single_line_regex, h]

theorem pml_nomatch (file : List String) (i : Nat) (fl rl : List String)
    (counter : Nat) (c : Int) (h : blockHitAt fl file i = false) :
    process_multi_line file i fl rl counter c = (false, counter, file) := by
  simp [process_multi_line, h]

theorem dp_loop_step (t : String) (fl rl : List String) (c : Int) (r : Bool)
    (fuel : Nat) (file : List String) (i counter : Nat) (changes : Bool)
    (h : i < file.length) (hs : skip_line t (file.get ⟨i, h⟩) fl = false) :
    dp_loop t fl rl c r (fuel + 1) file i counter changes
      = (let res :=
           if fl.length == 1 then
             if r then
               process_single_line_regex file i (file.get ⟨i, h⟩) (fl.headD "")
                 rl counter c
             else
               process_single_line file i (file.get ⟨i, h⟩) (fl.headD "") rl counter c
           else process_multi_line file i fl rl counter c
         dp_loop t fl rl c r fuel res.2.2 (i + 1) res.2.1 (changes || res.1)) := by
  have hs' : skip_line t file[i] fl = false := hs
  rw [dp_loop]
  simp [h, hs']

theorem dp_loop_no_hit (t : String) (fl rl : List String) (c : Int) (r : Bool)
    (file : List String) (hno : rule_hits fl file = false) :
    ∀ (fuel i counter : Nat) (changes : Bool), file.length ≤ fuel + i →
    dp_loop t fl rl c r fuel file i counter changes = some (file, counter, changes) := by
  intro fuel
  induction fuel with
  | zero =>
    intro i counter changes hfi
    exact dp_loop_done _ _ _ _ _ _ _ _ _ _ (by omega)
  | succ fuel ih =>
    intro i counter changes hfi
    by_cases h : i < file.length
    · by_cases hs : skip_line t (file.get ⟨i, h⟩) fl = true
      · rw [dp_loop_skip _ _ _ _ _ _ _ _ _ _ h hs]
        exact ih (i + 1) counter changes (by omega)
      · rw [dp_loop_step t fl rl c r fuel file i counter changes h (by simpa using hs)]
        have hres :
            (if fl.length == 1 then
               if r then
                 process_single_line_regex file i (file.get ⟨i, h⟩) (fl.headD "")
                   rl counter c
               else
                 process_single_line file i (file.get ⟨i, h⟩) (fl.headD "") rl counter c
             else process_multi_line file i fl rl counter c) = (false, counter, file) := by
          by_cases hl : fl.length = 1
          · obtain ⟨f, rfl⟩ := List.length_eq_one.mp hl
            have hcur : ¬ 0 < pyCount f (file.get ⟨i, h⟩) := by
              have := hno
              simp only [rule_hits, List.length_singleton, beq_self_eq_true, if_true,
                List.headD_cons] at this
              rw [List.any_eq_false] at this
              simpa using this (file.get ⟨i, h⟩) (file.get_mem i h)
            have hcur' : ¬ 0 < pyCount f file[i] := hcur
            cases r <;> simp [psl_nohit _ _ _ _ _ _ _ hcur', pslr_nohit _ _ _ _ _ _ _ hcur']
          · have hblock : blockHitAt fl file i = false := by
              have := hno
              simp only [rule_hits] at this
              rw [if_neg (by simpa using hl)] at this
              rw [List.any_eq_false] at this
              simpa using this i (List.mem_range.mpr h)
            simp [hl, pml_nomatch _ _ _ _ _ _ hblock]
        rw [hres]
        simpa using ih (i + 1) counter changes (by omega)
    · exact dp_loop_done _ _ _ _ _ _ _ _ _ _ h

theorem psl_counter_le (file : List String) (i : Nat) (cur find : String)
    (rl : List String) (counter : Nat) (c : Int) (hc : 0 ≤ c)
    (hcnt : (counter : Int) ≤ c) :
    (((process_single_line file i cur find rl counter c).2.1 : Nat) : Int) ≤ c := by
  by_cases hhit : 0 < pyCount find cur
  · by_cases hg : c ≠ -1 ∧ (counter : Int) ≥ c
    · rw [psl_gate _ _ _ _ _ _ _ hhit hg]; exact hcnt
    · by_cases hp : (rl.isEmpty && (py_strip cur == find)) = true
      · rw [psl_pop _ _ _ _ _ _ _ hhit hg hp]; exact hcnt
      · rw [psl_repl _ _ _ _ _ _ _ hhit hg (by simpa using hp)]
        have hne : c ≠ -1 := by omega
        have hlt : (counter : Int) < c := by
          rcases not_and_or.mp hg with h1 | h2
          · exact absurd hne (by simpa using h1)
          · omega
        push_cast
        omega
  · rw [psl_nohit _ _ _ _ _ _ _ hhit]; exact hcnt

theorem dp_loop_counter_le (t find : String) (rl : List String) (c : Int) (hc : 0 ≤ c) :
    ∀ (fuel : Nat) (file : List String) (i counter : Nat) (changes : Bool)
      (res : List String × Nat × Bool), (counter : Int) ≤ c →
    dp_loop t [find] rl c false fuel file i counter changes = some res →
    ((res.2.1 : Nat) : Int) ≤ c := by
  intro fuel
  induction fuel with
  | zero =>
    intro file i counter changes res hcnt h
    by_cases hi : i < file.length
    · rw [dp_loop] at h
      simp [hi] at h
    · rw [dp_loop_done _ _ _ _ _ _ _ _ _ _ hi] at h
      cases h
      exact hcnt
  | succ fuel ih =>
    intro file i counter changes res hcnt h
    by_cases hi : i < file.length
    · by_cases hs : skip_line t (file.get ⟨i, hi⟩) [find] = true
      · rw [dp_loop_skip _ _ _ _ _ _ _ _ _ _ hi hs] at h
        exact ih _ _ _ _ _ hcnt h
      · rw [dp_loop_single_exact t find rl c fuel file i counter changes hi
          (by simpa using hs)] at h
        exact ih _ _ _ _ _ (psl_counter_le _ _ _ _ _ _ _ hc hcnt) h
    · rw [dp_loop_done _ _ _ _ _ _ _ _ _ _ hi] at h
      cases h
      exact hcnt

/-- C3: for every file and every `search_and_replace`/`delete_line`
rule whose find target matches no line of the file (single-line rules
in exact or regex mode, and multi-line block rules alike), the scan
changes nothing and `data_processor` raises a `NotApplied` error
naming the action and the find target; the error return means the file
is never written back (`__finalize_changes` only writes on change), so
the on-disk content is untouched. -/
theorem unmatched_rule_fails (target : String) (find_lines replace_lines : List String)
    (count : Int) (regex : Bool) (file : List String)
    (hne : file ≠ []) (hno : rule_hits find_lines file = false) :
    data_processor target find_lines replace_lines count regex file
      = .error (.notApplied
          (if replace_lines.isEmpty then "DeleteLine" else "SearchAndReplace")
          find_lines) := by
  have hempty : file.isEmpty = false := by
    simpa using hne
  have hrun := dp_loop_no_hit target find_lines replace_lines count regex file hno
    (file.length + 1) 0 0 false (by omega)
  simp [data_processor, read_file_to_list, hempty, hrun, finalize_changes]

/-- C3 witness: a one-line file in which the find string `xyz` does not
occur; the rule fails with `NotApplied` naming `SearchAndReplace` and
the target. -/
theorem unmatched_rule_fails_witness :
    (["hello"] : List String) ≠ [] ∧ rule_hits ["xyz"] ["hello"] = false ∧
    data_processor "f" ["xyz"] ["r"] (-1) false ["hello"]
      = .error (.notApplied "SearchAndReplace" ["xyz"]) :=
  ⟨by simp, by decide,
    unmatched_rule_fails "f" ["xyz"] ["r"] (-1) false ["hello"] (by simp) (by decide)⟩

/-- C5 counterexample: in regex mode with `count = 1`, the loop never
increments its counter and has no cross-line gate, so a second
matching line is still substituted: on `["a", "a"]` with pattern `a`,
replacement `b` and `count = 1`, *both* lines become `b`, although the
claim requires the second matching line to be left untouched once one
substitution has fired. -/
theorem regex_count_not_bounding :
    data_processor "f" ["a"] ["b"] 1 true ["a", "a"] = .ok ["b", "b"] ∧
    (["b", "b"] : List String) ≠ ["b", "a"] :=
  ⟨rfl, by decide⟩

/-- C5 (amended): for exact (non-regex) single-line rules with a
non-negative `count`, the loop counter — incremented exactly once per
in-line substitution and consulted by the gate before any edit — never
exceeds `count` over the whole forward scan, so at most `count`
substitutions are performed and later matching lines are left
untouched; in regex mode `count` only selects between first-occurrence
and all-occurrence substitution within each matching line, with no
bound across lines. -/
theorem count_bound_exact (target find : String) (replace_lines : List String)
    (count : Int) (file : List String) (fuel : Nat) (res : List String × Nat × Bool)
    (hc : 0 ≤ count)
    (h : dp_loop target [find] replace_lines count false fuel file 0 0 false = some res) :
    ((res.2.1 : Nat) : Int) ≤ count :=
  dp_loop_counter_le target find replace_lines count hc fuel file 0 0 false res
    (by simp only [Nat.cast_zero]; exact hc) h

/-- C5 witness: the exact-mode run on `["a", "a"]` with `count = 1`
replaces the first line only and finishes with counter `1 ≤ 1`. -/
theorem count_bound_exact_witness :
    (0 : Int) ≤ 1 ∧
    dp_loop "f" ["a"] ["b"] 1 false 3 ["a", "a"] 0 0 false = some (["b", "a"], 1, true) ∧
    (((1 : Nat) : Int)) ≤ 1 :=
  ⟨by decide, rfl,
    count_bound_exact "f" "a" ["b"] 1 ["a", "a"] 3 (["b", "a"], 1, true) (by decide) rfl⟩

/-- C7: applying `search_and_replace` with `target = specfile`,
`find = "1%{?dist}"`, `replace = "2%{?dist}"`, `count = 1` in
non-regex mode to any file containing the line `Release:  1%{?dist}`
and no other occurrence of the find string replaces only the matched
substring within that line, yielding exactly `Release:  2%{?dist}`
with the rest of the line preserved and every other line unchanged. -/
theorem exact_single_line_replace (pre post : List String)
    (hpre : ∀ l ∈ pre, pyCount "1%\x7b?dist\x7d" l = 0)
    (hpost : ∀ l ∈ post, pyCount "1%\x7b?dist\x7d" l = 0) :
    search_and_replace_execute "specfile" "1%\x7b?dist\x7d" "2%\x7b?dist\x7d" 1 false
      (pre ++ ["Release:  1%\x7b?dist\x7d"] ++ post)
      = .ok (pre ++ ["Release:  2%\x7b?dist\x7d"] ++ post) := by
  have hnl1 : pyContainsNL "1%\x7b?dist\x7d" = false := by decide
  have hnl2 : pyContainsNL "2%\x7b?dist\x7d" = false := by decide
  have hempty : (pre ++ ["Release:  1%\x7b?dist\x7d"] ++ post).isEmpty = false := by
    simp
  have hstep :
      dp_single_todo "specfile" "1%\x7b?dist\x7d" ["2%\x7b?dist\x7d"] 1
        ("Release:  1%\x7b?dist\x7d" :: post) 0 false
        = ("Release:  2%\x7b?dist\x7d" :: post, 1, true) := by
    rw [dpst_repl "specfile" "1%\x7b?dist\x7d" ["2%\x7b?dist\x7d"] 1
      "Release:  1%\x7b?dist\x7d" post 0 false (by decide) (by decide) (by decide)
      (by decide)]
    have htail := dpst_prefix_nohit "specfile" "1%\x7b?dist\x7d" ["2%\x7b?dist\x7d"] 1
      post [] 1 true hpost
    simp only [List.append_nil, dpst_nil] at htail
    rw [htail]
    exact congrArg (fun z => (z :: post, 1, true)) (by decide)
  have hfile :
      dp_single_todo "specfile" "1%\x7b?dist\x7d" ["2%\x7b?dist\x7d"] 1
        (pre ++ "Release:  1%\x7b?dist\x7d" :: post) 0 false
        = (pre ++ "Release:  2%\x7b?dist\x7d" :: post, 1, true) := by
    rw [dpst_prefix_nohit "specfile" "1%\x7b?dist\x7d" ["2%\x7b?dist\x7d"] 1
      pre ("Release:  1%\x7b?dist\x7d" :: post) 0 false hpre, hstep]
  have hD := dp_loop_eq_todo "specfile" "1%\x7b?dist\x7d" ["2%\x7b?dist\x7d"] 1
    (pre ++ "Release:  1%\x7b?dist\x7d" :: post).length
    (pre ++ "Release:  1%\x7b?dist\x7d" :: post) (le_refl _)
    [] ((pre ++ "Release:  1%\x7b?dist\x7d" :: post).length + 1) 0 false (by omega)
  simp only [List.nil_append, List.length_nil, hfile, List.length_append,
    List.length_cons] at hD
  simp [search_and_replace_execute, hnl1, hnl2, data_processor, read_file_to_list,
    hempty, hD, finalize_changes]

theorem cl_scan_no_marker (m : String) (w : List String) :
    ∀ (xs acc : List String), (∀ l ∈ xs, l ≠ "%changelog") →
    cl_scan m w acc xs = xs := by
  intro xs
  induction xs with
  | nil => intro acc _; rfl
  | cons l rest ih =>
    intro acc hno
    have hl : (l == "%changelog") = false := by
      simpa using hno l (by simp)
    rw [cl_scan.eq_def]
    simp only [hl, Bool.false_eq_true, if_false]
    rw [ih acc (fun x hx => hno x (by simp [hx]))]

theorem cl_scan_prefix_no_marker (m : String) (w : List String) :
    ∀ (pre rest acc : List String), (∀ l ∈ pre, l ≠ "%changelog") →
    cl_scan m w acc (pre ++ rest) = pre ++ cl_scan m w acc rest := by
  intro pre
  induction pre with
  | nil => intro rest acc _; simp
  | cons l tl ih =>
    intro rest acc hno
    have hl : (l == "%changelog") = false := by
      simpa using hno l (by simp)
    rw [List.cons_append, cl_scan.eq_def]
    simp only [hl, Bool.false_eq_true, if_false]
    rw [ih rest acc (fun x hx => hno x (by simp [hx]))]
    simp

/-- C9: `SpecChangelog.execute` on a (readable) spec file containing no
line exactly equal to `%changelog` (and no `%autochangelog` macro)
completes without raising and inserts nothing: the file is rewritten
with content identical to what was read — in contrast to the
`NotApplied` hard failure of the line-edit actions. -/
theorem spec_changelog_no_marker_noop (name email : String) (line parsed : List String)
    (today : String) (file : List String)
    (h1 : file ≠ []) (h2 : spec_autochangelog file = false)
    (h3 : ∀ l ∈ file, l ≠ "%changelog") :
    spec_changelog_execute name email line parsed today file = .ok file := by
  have hempty : file.isEmpty = false := by simpa using h1
  have hscan := cl_scan_no_marker (changelog_meta today name email parsed)
    ((line.map py_wrap).flatten) file [] h3
  simp [spec_changelog_execute, read_file_to_list, hempty, h2, hscan]

/-- C9 witness: a two-line spec without a `%changelog` marker passes
through `SpecChangelog.execute` unchanged. -/
theorem spec_changelog_no_marker_noop_witness :
    (["Name: x", "%build"] : List String) ≠ [] ∧
    spec_autochangelog ["Name: x", "%build"] = false ∧
    (∀ l ∈ (["Name: x", "%build"] : List String), l ≠ "%changelog") ∧
    spec_changelog_execute "T" "t@e.com" ["bump"] ["Version: 1.0"] "Mon Jan 01 2024"
      ["Name: x", "%build"] = .ok ["Name: x", "%build"] :=
  ⟨by simp, by decide, by decide,
    spec_changelog_no_marker_noop "T" "t@e.com" ["bump"] ["Version: 1.0"]
      "Mon Jan 01 2024" ["Name: x", "%build"] (by simp) (by decide) (by decide)⟩

/-- C1 counterexample: two `spec_changelog` actions declared A then B.
`execute_all` runs the changelog actions in reverse order (B first),
but each run inserts its entry directly below the `%changelog` marker,
above the previously inserted one — so the *last*-applied A ends up on
top and B's entry appears *below* A's, not above it as the claim
requires (the second conjunct rules the claimed B-first layout out). -/
theorem changelog_order_counterexample :
    execute_all ["Version: 1.0", "Release: 1"] "Mon Jan 01 2024"
      [QueuedAction.specChangelog "A" "a@x" ["alpha"],
       QueuedAction.specChangelog "B" "b@x" ["beta"]]
      ["%changelog"]
      = .ok ["%changelog",
             "* Mon Jan 01 2024 A <a@x> - 1.0-1", "- alpha\n",
             "* Mon Jan 01 2024 B <b@x> - 1.0-1", "- beta\n"] ∧
    (["%changelog",
      "* Mon Jan 01 2024 A <a@x> - 1.0-1", "- alpha\n",
      "* Mon Jan 01 2024 B <b@x> - 1.0-1", "- beta\n"] : List String)
      ≠ ["%changelog",
         "* Mon Jan 01 2024 B <b@x> - 1.0-1", "- beta\n",
         "* Mon Jan 01 2024 A <a@x> - 1.0-1", "- alpha\n"] :=
  ⟨rfl, by decide⟩

theorem str_data_append (s t : String) : (s ++ t).data = s.data ++ t.data := rfl

theorem str_toList_eq (s : String) : s.toList = s.data := rfl

theorem changelog_meta_data (t n e : String) (p : List String) :
    (changelog_meta t n e p).data
      = '*' :: ' ' :: (t ++ " " ++ n ++ " <" ++ e ++ "> - " ++ full_version_of p).data := by
  have : changelog_meta t n e p
      = "* " ++ (t ++ " " ++ n ++ " <" ++ e ++ "> - " ++ full_version_of p) := by
    simp [changelog_meta, String.append_assoc]
  rw [this, str_data_append]
  rfl

theorem marker_ne_of_data_star (s : String)
    (h : ∃ cs, s.data = '*' :: ' ' :: cs) : s ≠ "%changelog" := by
  obtain ⟨cs, hd⟩ := h
  intro heq
  rw [heq] at hd
  simp at hd

theorem isPrefixOf_cons_cons (a b : Char) (as bs : List Char) :
    (a :: as).isPrefixOf (b :: bs) = (a == b && as.isPrefixOf bs) := rfl

theorem auto_false_of_data_star (s : String)
    (h : ∃ cs, s.data = '*' :: ' ' :: cs) : autochangelog_line s = false := by
  obtain ⟨cs, hd⟩ := h
  simp only [autochangelog_line, pyStartsWith, str_toList_eq, hd]
  simp [isPrefixOf_cons_cons, pyIsSpace]

theorem wrap_fill_shape : ∀ (ws : List String) (cur : String),
    ((∃ s, cur = "- " ++ s) ∨ (∃ s, cur = "  " ++ s)) →
    ∀ l ∈ wrap_fill cur ws, (∃ s, l = "- " ++ s) ∨ (∃ s, l = "  " ++ s) := by
  intro ws
  induction ws with
  | nil =>
    intro cur hc l hl
    rw [wrap_fill] at hl
    simp at hl
    subst hl
    exact hc
  | cons w ws ih =>
    intro cur hc l hl
    rw [wrap_fill] at hl
    by_cases hfit : (cur ++ " " ++ w).length ≤ 80
    · rw [if_pos hfit] at hl
      refine ih (cur ++ " " ++ w) ?_ l hl
      rcases hc with ⟨s, rfl⟩ | ⟨s, rfl⟩
      · exact Or.inl ⟨s ++ " " ++ w, by simp [String.append_assoc]⟩
      · exact Or.inr ⟨s ++ " " ++ w, by simp [String.append_assoc]⟩
    · rw [if_neg hfit] at hl
      rcases List.mem_cons.mp hl with rfl | hl
      · exact hc
      · exact ih ("  " ++ w) (Or.inr ⟨w, rfl⟩) l hl

theorem py_wrap_shape (e : String) :
    ∀ l ∈ py_wrap e, (∃ s, l = "- " ++ s) ∨ (∃ s, l = "  " ++ s) := by
  intro l hl
  rw [py_wrap] at hl
  rcases hw : py_words e with _ | ⟨w, ws⟩
  · rw [hw] at hl; simp at hl
  · rw [hw] at hl
    exact wrap_fill_shape ws ("- " ++ w) (Or.inl ⟨w, rfl⟩) l hl

theorem wrapped_shape (ls : List String) :
    ∀ l ∈ (ls.map py_wrap).flatten, (∃ s, l = "- " ++ s) ∨ (∃ s, l = "  " ++ s) := by
  intro l hl
  rcases List.mem_flatten.mp hl with ⟨xs, hxs, hlx⟩
  rcases List.mem_map.mp hxs with ⟨e, _, rfl⟩
  exact py_wrap_shape e l hlx

theorem changelog_body_ne_marker (ls : List String) :
    changelog_body ls ≠ "%changelog" := by
  intro heq
  have hd : (changelog_body ls).data
      = (pyJoin "\n" ((ls.map py_wrap).flatten)).data ++ ['\n'] := by
    rw [changelog_body, str_data_append]
  rw [heq] at hd
  have h1 : ("%changelog" : String).data.getLast? = some 'g' := by decide
  rw [hd] at h1
  simp at h1

theorem pyJoin_head_shape (sep : String) (a : String) (rest : List String) :
    ∃ cs, (pyJoin sep (a :: rest)).data = a.data ++ cs := by
  cases rest with
  | nil => exact ⟨[], by simp [pyJoin]⟩
  | cons b bs =>
    refine ⟨(sep ++ pyJoin sep (b :: bs)).data, ?_⟩
    have hj : pyJoin sep (a :: b :: bs) = a ++ sep ++ pyJoin sep (b :: bs) := rfl
    rw [hj, show a ++ sep ++ pyJoin sep (b :: bs) = a ++ (sep ++ pyJoin sep (b :: bs)) from by
      simp [String.append_assoc]]
    exact str_data_append _ _

theorem changelog_body_not_auto (ls : List String) :
    autochangelog_line (changelog_body ls) = false := by
  rcases hflat : (ls.map py_wrap).flatten with _ | ⟨a, rest⟩
  · have : changelog_body ls = "\n" := by
      rw [changelog_body, hflat]
      rfl
    rw [this]
    decide
  · have hshape := wrapped_shape ls a (by rw [hflat]; simp)
    have hd : (changelog_body ls).data = (pyJoin "\n" (a :: rest)).data ++ ['\n'] := by
      rw [changelog_body, hflat, str_data_append]
    obtain ⟨cs, hja⟩ := pyJoin_head_shape "\n" a rest
    rcases hshape with ⟨s, hs⟩ | ⟨s, hs⟩
    · have ha : a.data = '-' :: ' ' :: s.data := by rw [hs]; rfl
      have : (changelog_body ls).data = '-' :: ' ' :: (s.data ++ cs ++ ['\n']) := by
        rw [hd, hja, ha]; simp
      simp only [autochangelog_line, pyStartsWith, str_toList_eq, this]
      simp [isPrefixOf_cons_cons, pyIsSpace]
    · have ha : a.data = ' ' :: ' ' :: s.data := by rw [hs]; rfl
      have : (changelog_body ls).data = ' ' :: ' ' :: (s.data ++ cs ++ ['\n']) := by
        rw [hd, hja, ha]; simp
      simp only [autochangelog_line, pyStartsWith, str_toList_eq, this]
      simp [isPrefixOf_cons_cons, pyIsSpace]

theorem sce_single_marker (name email : String) (line parsed : List String)
    (today : String) (pre post : List String)
    (hpre : ∀ l ∈ pre, l ≠ "%changelog" ∧ autochangelog_line l = false)
    (hpost : ∀ l ∈ post, l ≠ "%changelog" ∧ autochangelog_line l = false) :
    spec_changelog_execute name email line parsed today (pre ++ "%changelog" :: post)
      = .ok (pre ++ "%changelog" :: changelog_meta today name email parsed
               :: changelog_body line :: post) := by
  have hempty : (pre ++ "%changelog" :: post).isEmpty = false := by simp
  have hac : spec_autochangelog (pre ++ "%changelog" :: post) = false := by
    rw [spec_autochangelog, List.any_eq_false]
    intro l hl
    rcases List.mem_append.mp hl with h | h
    · simp [(hpre l h).2]
    · rcases List.mem_cons.mp h with rfl | h
      · decide
      · simp [(hpost l h).2]
  have hscan : cl_scan (changelog_meta today name email parsed)
      ((line.map py_wrap).flatten) [] (pre ++ "%changelog" :: post)
      = pre ++ "%changelog" :: changelog_meta today name email parsed
          :: changelog_body line :: post := by
    rw [cl_scan_prefix_no_marker _ _ pre _ [] (fun l hl => (hpre l hl).1)]
    rw [cl_scan.eq_def]
    simp only [beq_self_eq_true, if_true]
    rw [cl_scan_no_marker _ _ post _ (fun l hl => (hpost l hl).1)]
    simp [changelog_body]
  simp [spec_changelog_execute, read_file_to_list, hempty, hac, hscan]

/-- C1 (amended): for two `spec_changelog` actions declared A then B,
`ActionQueue.execute_all` defers both to the end and runs them in
reverse declaration order (B first); since each run inserts its entry
directly below the `%changelog` marker, the later-applied A ends up on
top, so the entries appear in *declaration* order top-to-bottom: A's
entry above B's (the reverse of the claimed B-above-A layout). -/
theorem changelog_declaration_order_on_top
    (parsed : List String) (today nA eA nB eB : String) (lA lB : List String)
    (pre post : List String)
    (hpre : ∀ l ∈ pre, l ≠ "%changelog" ∧ autochangelog_line l = false)
    (hpost : ∀ l ∈ post, l ≠ "%changelog" ∧ autochangelog_line l = false) :
    execute_all parsed today
      [QueuedAction.specChangelog nA eA lA, QueuedAction.specChangelog nB eB lB]
      (pre ++ "%changelog" :: post)
      = .ok (pre ++ "%changelog"
               :: changelog_meta today nA eA parsed :: changelog_body lA
               :: changelog_meta today nB eB parsed :: changelog_body lB :: post) := by
  have hB := sce_single_marker nB eB lB parsed today pre post hpre hpost
  have hpost' : ∀ l ∈ (changelog_meta today nB eB parsed :: changelog_body lB :: post),
      l ≠ "%changelog" ∧ autochangelog_line l = false := by
    intro l hl
    rcases List.mem_cons.mp hl with rfl | hl
    · exact ⟨marker_ne_of_data_star _ ⟨_, changelog_meta_data today nB eB parsed⟩,
        auto_false_of_data_star _ ⟨_, changelog_meta_data today nB eB parsed⟩⟩
    · rcases List.mem_cons.mp hl with rfl | hl
      · exact ⟨changelog_body_ne_marker lB, changelog_body_not_auto lB⟩
      · exact hpost l hl
  have hA := sce_single_marker nA eA lA parsed today pre
    (changelog_meta today nB eB parsed :: changelog_body lB :: post) hpre hpost'
  simp [execute_all, run_queue, execute_action, QueuedAction.isSpecChangelog, hB, hA]

/-- C1 amended witness: on the one-line spec `["%changelog"]`, the
config declaring A then B produces A's header and body above B's. -/
theorem changelog_declaration_order_on_top_witness :
    (∀ l ∈ ([] : List String), l ≠ "%changelog" ∧ autochangelog_line l = false) ∧
    execute_all ["Version: 1.0", "Release: 1"] "Mon Jan 01 2024"
      [QueuedAction.specChangelog "A" "a@x" ["alpha"],
       QueuedAction.specChangelog "B" "b@x" ["beta"]]
      ([] ++ "%changelog" :: [])
      = .ok ([] ++ "%changelog"
               :: changelog_meta "Mon Jan 01 2024" "A" "a@x" ["Version: 1.0", "Release: 1"]
               :: changelog_body ["alpha"]
               :: changelog_meta "Mon Jan 01 2024" "B" "b@x" ["Version: 1.0", "Release: 1"]
               :: changelog_body ["beta"] :: []) :=
  ⟨by simp, changelog_declaration_order_on_top ["Version: 1.0", "Release: 1"]
    "Mon Jan 01 2024" "A" "a@x" "B" "b@x" ["alpha"] ["beta"] [] []
    (by simp) (by simp)⟩

/-- C2 (code bug): `get_new_number` unpacks `get_source_ids`' result
`(patches, sources)` into swapped variables, so an explicit new
`Source` number is checked against the *patch* ids and vice versa.
First conjunct: adding a source with explicit number `0` to a spec
that already has `Source0:` raises nothing and silently produces a
duplicate `Source0:` directive, where the claim requires a parse
error.  Second conjunct: the collision that *is* reported is the
cross-type one — a new `Source 0` colliding with an existing
`Patch0:`. -/
theorem explicit_collision_not_detected :
    add_new_source ["Source0: foo"] "mysource.tar" .SOURCE "pkg" false 0
      = .ok ["Source0: foo", "Source0: mysource.tar"] ∧
    add_new_source ["Patch0: p", "Source1: foo"] "mysource.tar" .SOURCE "pkg" false 0
      = .error (.rpmParse "Source 0 already exists.") :=
  ⟨rfl, rfl⟩

/-- C6 (code bug): `DeleteFile.execute` guards `unlink` behind
`filename.exists()`, so for an absent file neither the unlink nor the
`FileNotFoundError` handler (the only caller of
`__delete_from_metadata`) runs, and the metadata file is rewritten
unchanged — its `<hex-hash>  <filename>` line is *not* removed, where
the claim (and the dead handler's evident intent) requires removal.
The second conjunct checks the claim's correct half: a missing
metadata file raises `FileNotFound`. -/
theorem delete_file_absent_keeps_metadata :
    delete_file_execute "foo.tar.gz"
        { target_on_disk := false, metadata_on_disk := true,
          metadata_lines := ["0123abcd  foo.tar.gz"] }
      = .ok { target_on_disk := false, metadata_on_disk := true,
              metadata_lines := ["0123abcd  foo.tar.gz"] } ∧
    delete_file_execute "foo.tar.gz"
        { target_on_disk := false, metadata_on_disk := false, metadata_lines := [] }
      = .error (.fileNotFound "metadata file not found") :=
  ⟨rfl, rfl⟩

/-- C8 counterexample: on a spec whose *highest* `Source` number (5)
is not the number of its *last* `Source` directive (2),
`add_new_source` with the `latest` sentinel (`-1`) inserts
`Source3:` — `last_number + 1` for the last directive found scanning
from the end — and not the claimed `Source6:`. -/
theorem auto_number_uses_last_not_highest :
    add_new_source ["Source5: a", "Source2: b"] "new.tar" .SOURCE "pkg" false (-1)
      = .ok ["Source5: a", "Source2: b", "Source3: new.tar"] ∧
    "Source6: new.tar" ∉ (["Source5: a", "Source2: b", "Source3: new.tar"] : List String) :=
  ⟨rfl, by decide⟩

theorem isPrefixOf_append_self : ∀ (l t : List Char), l.isPrefixOf (l ++ t) = true := by
  intro l
  induction l with
  | nil => intro t; cases t <;> rfl
  | cons a as ih => intro t; simp [isPrefixOf_cons_cons, ih]

theorem takeWhile_digits_colon : ∀ (ds tail : List Char), (∀ c ∈ ds, c.isDigit = true) →
    (ds ++ ':' :: tail).takeWhile Char.isDigit = ds ∧
    (ds ++ ':' :: tail).dropWhile Char.isDigit = ':' :: tail := by
  intro ds
  induction ds with
  | nil =>
    intro tail _
    constructor <;> simp [List.takeWhile, List.dropWhile]
  | cons c cs ih =>
    intro tail hall
    have hc : c.isDigit = true := hall c (by simp)
    have := ih tail (fun d hd => hall d (by simp [hd]))
    constructor <;> simp [List.takeWhile, List.dropWhile, hc, this.1, this.2]

theorem source_line_toList (ds x : String) :
    ("Source" ++ ds ++ ": " ++ x).toList
      = "Source".toList ++ (ds.toList ++ ':' :: ' ' :: x.toList) := by
  have h : "Source" ++ ds ++ ": " ++ x = "Source" ++ (ds ++ (": " ++ x)) := by
    simp [String.append_assoc]
  rw [h]
  show ("Source" ++ (ds ++ (": " ++ x))).data
    = "Source".data ++ (ds.data ++ ':' :: ' ' :: x.data)
  rw [str_data_append, str_data_append, str_data_append]
  rfl

theorem matchDirective_source_line (ds x : String)
    (hds2 : ∀ c ∈ ds.toList, c.isDigit = true) :
    matchDirective "Source" ("Source" ++ ds ++ ": " ++ x) = some ds := by
  have htl := source_line_toList ds x
  have htw := takeWhile_digits_colon ds.toList (' ' :: x.toList) hds2
  rw [matchDirective, htl]
  rw [if_pos (isPrefixOf_append_self _ _)]
  rw [List.drop_left]
  simp only [htw.1, htw.2]
  rfl

theorem endif_false_source_line (ds x : String) :
    is_endif_line ("Source" ++ ds ++ ": " ++ x) = false := by
  rw [is_endif_line, source_line_toList ds x]
  simp [isPrefixOf_cons_cons]

theorem gld_skip (d : String) : ∀ (xs rest : List String) (i : Int),
    (∀ l ∈ xs, is_endif_line l = false ∧ matchDirective d l = none) →
    gld_loop d (xs ++ rest) i false none
      = gld_loop d rest (i + xs.length) false none := by
  intro xs
  induction xs with
  | nil => intro rest i _; simp
  | cons l tl ih =>
    intro rest i hno
    have hl := hno l (by simp)
    rw [List.cons_append, gld_loop.eq_def]
    simp only [hl.1, hl.2, Bool.false_eq_true, if_false, Bool.and_false]
    rw [ih rest (i + 1) (fun y hy => hno y (by simp [hy]))]
    congr 1
    simp only [List.length_cons]
    push_cast
    omega

/-- C8 (amended): `add_new_source` with the `latest` sentinel numbers
the new directive after the *last* directive of the requested type in
file order (the first one found scanning from the end, outside
`%endif` blocks), inserting `Source(N+1):` directly below `SourceN:`
and restoring the surrounding line order by un-reversing before
returning.  When the directives appear in increasing order — the
usual layout — the last one is also the highest, which yields the
claim's `Source5:` to `Source6:` behaviour; the counterexample shows
the "highest" reading fails when they do not. -/
theorem add_new_source_after_last_directive
    (pre post : List String) (ds x nm pkg : String) (pf : Bool)
    (hds1 : ds ≠ "") (hds2 : ∀ c ∈ ds.toList, c.isDigit = true)
    (hpost : ∀ l ∈ post, is_endif_line l = false ∧ matchDirective "Source" l = none) :
    add_new_source (pre ++ ("Source" ++ ds ++ ": " ++ x) :: post) nm .SOURCE pkg pf (-1)
      = .ok (pre ++ ("Source" ++ ds ++ ": " ++ x)
               :: ("Source" ++ pyStr ((natOfDigits ds.toList : Int) + 1) ++ ": " ++ nm)
               :: post) := by
  set line := "Source" ++ ds ++ ": " ++ x with hline_def
  set n : Nat := natOfDigits ds.toList with hn_def
  have hrev : (pre ++ line :: post).reverse = post.reverse ++ line :: pre.reverse := by
    simp
  have hdsl : ds.toList.isEmpty = false := by
    cases ds with
    | mk d =>
      cases d with
      | nil => exact absurd rfl hds1
      | cons c cs => rfl
  have hloop : gld_loop "Source" (post.reverse ++ line :: pre.reverse) 0 false none
      = (some (Int.ofNat n), some (post.length : Int), false, none) := by
    rw [gld_skip "Source" post.reverse (line :: pre.reverse) 0
      (fun l hl => hpost l (List.mem_reverse.mp hl))]
    rw [gld_loop.eq_def]
    simp only [endif_false_source_line ds x, Bool.false_eq_true, if_false,
      Bool.and_false, matchDirective_source_line ds x hds2, hdsl]
    simp
    rfl
  have hgld : get_last_directive (post.reverse ++ line :: pre.reverse) .SOURCE
      = .ok (some (Int.ofNat n), some (post.length : Int), false) := by
    rw [get_last_directive]
    simp [Directive.value, hloop]
  have hgnn : ∀ sd, get_new_number sd false .SOURCE (some (Int.ofNat n)) (-1)
      = .ok (pyStr ((n : Int) + 1)) := by
    intro sd
    simp [get_new_number]
  have hins : pyInsert (post.reverse ++ line :: pre.reverse) ((post.length : Int))
        ("Source" ++ pyStr ((n : Int) + 1) ++ ": " ++ nm)
      = post.reverse ++ ("Source" ++ pyStr ((n : Int) + 1) ++ ": " ++ nm)
          :: line :: pre.reverse := by
    rw [pyInsert]
    have h0 : ¬ ((post.length : Int) < 0) := by omega
    have hmin : min (post.length : Int)
        ((post.reverse ++ line :: pre.reverse).length : Int) = (post.length : Int) := by
      simp
      omega
    simp only [h0, if_false]
    rw [hmin]
    rw [Int.toNat_natCast]
    rw [List.take_left' (by simp), List.drop_left' (by simp)]
    simp
  rw [add_new_source]
  rw [hrev, hgld]
  simp only [except_bind_ok]
  rw [hgnn]
  simp only [except_bind_ok, Directive.value, hins]
  simp [List.reverse_append]

/-- C8 witness: a spec whose last (and highest) `Source` directive is
`Source5:` receives `Source6:` right below it. -/
theorem add_new_source_after_last_directive_witness :
    ("5" : String) ≠ "" ∧ (∀ c ∈ "5".toList, c.isDigit = true) ∧
    add_new_source ["Name: x", "Source5: a", "%build"] "new.tar" .SOURCE "pkg" false (-1)
      = .ok ["Name: x", "Source5: a", "Source6: new.tar", "%build"] :=
  ⟨by decide, by decide,
    add_new_source_after_last_directive ["Name: x"] ["%build"] "5" "a" "new.tar" "pkg"
      false (by decide) (by decide) (by decide)⟩

theorem check_action_dict_ok : ∀ (kvs : List (String × YVal)),
    kvs.any bad_pair = false → check_action_dict kvs = .ok () := by
  intro kvs
  induction kvs with
  | nil => intro _; rfl
  | cons nv rest ih =>
    intro h
    obtain ⟨name, val⟩ := nv
    have hhead : bad_pair (name, val) = false := by
      rcases List.any_eq_false.mp h (name, val) (by simp) with h'
      simpa using h'
    have hrest : rest.any bad_pair = false := by
      rw [List.any_eq_false]
      intro y hy
      exact List.any_eq_false.mp h y (by simp [hy])
    rcases hL : List.lookup name ACTIONS with _ | sch
    · exact absurd hhead (by simp [bad_pair, hL])
    · cases val
      case list xs =>
        rw [check_action_dict.eq_def]
        simp [check_action_pair, hL, ih hrest]
      all_goals exact absurd hhead (by simp [bad_pair, hL, YVal.isList])

theorem check_action_dict_err : ∀ (kvs : List (String × YVal)),
    kvs.any bad_pair = true →
    ∃ e, check_action_dict kvs = .error e ∧ e.isConfigError = true := by
  intro kvs
  induction kvs with
  | nil => intro h; simp at h
  | cons nv rest ih =>
    intro h
    obtain ⟨name, val⟩ := nv
    rcases hL : List.lookup name ACTIONS with _ | sch
    · refine ⟨.patchConfigValue ("Unknown Action: " ++ name ++ " is not a valid action."),
        ?_, rfl⟩
      rw [check_action_dict.eq_def]
      simp [check_action_pair, hL]
    · cases val
      case list xs =>
        have hhead : bad_pair (name, YVal.list xs) = false := by
          simp [bad_pair, hL, YVal.isList]
        have hrest : rest.any bad_pair = true := by
          rcases List.any_eq_true.mp h with ⟨y, hy, hby⟩
          rcases List.mem_cons.mp hy with rfl | hy
          · rw [hhead] at hby; cases hby
          · exact List.any_eq_true.mpr ⟨y, hy, hby⟩
        obtain ⟨e, he, hce⟩ := ih hrest
        refine ⟨e, ?_, hce⟩
        rw [check_action_dict.eq_def]
        simp [check_action_pair, hL, he]
      all_goals
        refine ⟨.patchConfigType ("Wrong format: " ++ name ++ " is not a list."), ?_, rfl⟩
      all_goals rw [check_action_dict.eq_def]
      all_goals simp [check_action_pair, hL]

theorem check_action_entries_err : ∀ (entries : List YVal),
    entries.all YVal.isDict = true → entries.any bad_entry = true →
    ∃ e, check_action_entries entries = .error e ∧ e.isConfigError = true := by
  intro entries
  induction entries with
  | nil => intro _ h; simp at h
  | cons ent rest ih =>
    intro hall h
    have hent : ent.isDict = true := by
      have := List.all_eq_true.mp hall ent (by simp)
      simpa using this
    cases ent
    case dict kvs =>
      rcases hb : kvs.any bad_pair with _ | _
      · have hrest : rest.any bad_entry = true := by
          rcases List.any_eq_true.mp h with ⟨y, hy, hby⟩
          rcases List.mem_cons.mp hy with rfl | hy
          · simp [bad_entry, hb] at hby
          · exact List.any_eq_true.mpr ⟨y, hy, hby⟩
        have hallr : rest.all YVal.isDict = true := by
          rw [List.all_eq_true]
          intro y hy
          exact List.all_eq_true.mp hall y (by simp [hy])
        obtain ⟨e, he, hce⟩ := ih hallr hrest
        refine ⟨e, ?_, hce⟩
        rw [check_action_entries.eq_def]
        simp [check_action_dict_ok kvs hb, he]
      · obtain ⟨e, he, hce⟩ := check_action_dict_err kvs hb
        refine ⟨e, ?_, hce⟩
        rw [check_action_entries.eq_def]
        simp [he]
    all_goals simp [YVal.isDict] at hent

/-- C4: for every YAML patch config whose `patch` list (of mappings)
contains a structurally invalid entry — an unknown action name or an
action whose parameter collection is not a list — at any position,
`Config.__process_config` raises one of the two configuration errors
during the up-front `__validate_config` pass, before any `Action` is
instantiated and before anything executes: the `.error` result of
`process_config` short-circuits the instantiation loop entirely, so
no file mutation can occur and entries earlier in the list than the
malformed one are never executed. -/
theorem config_fail_fast (entries : List YVal) (rest_kvs : List (String × YVal))
    (hdicts : entries.all YVal.isDict = true)
    (hbad : entries.any bad_entry = true) :
    ∃ e, process_config (.dict (("patch", .list entries) :: rest_kvs)) = .error e ∧
      e.isConfigError = true := by
  obtain ⟨e, he, hce⟩ := check_action_entries_err entries hdicts hbad
  refine ⟨e, ?_, hce⟩
  have hval : validate_config (.dict (("patch", .list entries) :: rest_kvs)) = .error e := by
    rw [validate_config]
    rw [if_neg (by simp [yTruthy, yHasPatch])]
    simp [List.lookup, he]
  rw [process_config, hval]
  rfl

/-- C4 witness: a config whose first entry is well-formed and whose
second names an unregistered action fails validation with a
configuration error. -/
theorem config_fail_fast_witness :
    ([YVal.dict [("search_and_replace", .list [])],
      YVal.dict [("no_such_action", .list [])]] : List YVal).all YVal.isDict = true ∧
    ([YVal.dict [("search_and_replace", .list [])],
      YVal.dict [("no_such_action", .list [])]] : List YVal).any bad_entry = true ∧
    ∃ e, process_config (.dict [("patch", .list
        [YVal.dict [("search_and_replace", .list [])],
         YVal.dict [("no_such_action", .list [])]])]) = .error e ∧
      e.isConfigError = true :=
  ⟨by decide, by decide,
    config_fail_fast
      [YVal.dict [("search_and_replace", .list [])],
       YVal.dict [("no_such_action", .list [])]] [] (by decide) (by decide)⟩

theorem lookup_none_of_not_mem_keys : ∀ (data : List (String × YVal)) (k : String),
    k ∉ data.map Prod.fst → List.lookup k data = none := by
  intro data
  induction data with
  | nil => intro k _; rfl
  | cons kv rest ih =>
    intro k hk
    obtain ⟨k', v⟩ := kv
    have h1 : k ≠ k' := by
      intro h
      exact hk (by simp [h])
    have h2 : k ∉ rest.map Prod.fst := fun h => hk (by simp [h])
    simp [List.lookup, beq_eq_false_iff_ne.mpr h1, ih k h2]

/-- C10: for every `ReplaceFile` parameter set that passes
`Action.validate`, the lookaside-upload branch of `execute` is
unreachable and the action always takes the local copy path:
validation rejects any parameter named `upload` (not among
`ReplaceFile`'s allowed keys), while `execute` consults only
`self.data.get('upload', False)`, so the allowed
`upload_to_lookaside` parameter has no effect on the branch taken. -/
theorem replace_file_upload_unreachable (data : List (String × YVal))
    (h : action_validate replace_file_schema data = .ok ()) :
    replace_file_branch data = .copy := by
  rcases hmiss : (replace_file_schema.requiredKeys.filter
      (fun k => !(data.map Prod.fst).contains k)).isEmpty with _ | _
  · rw [action_validate] at h
    simp only [hmiss] at h
    simp at h
  · rcases hunx : ((data.map Prod.fst).filter
        (fun k => !(replace_file_schema.allowedKeys.map Prod.fst).contains k)).isEmpty
        with _ | _
    · rw [action_validate] at h
      simp only [hmiss, hunx] at h
      simp at h
    · have hnk : "upload" ∉ data.map Prod.fst := by
        intro hk
        have hfilter := List.isEmpty_iff.mp hunx
        have hmem : "upload" ∈ (data.map Prod.fst).filter
            (fun k => !(replace_file_schema.allowedKeys.map Prod.fst).contains k) := by
          rw [List.mem_filter]
          exact ⟨hk, by decide⟩
        rw [hfilter] at hmem
        cases hmem
      rw [replace_file_branch, lookup_none_of_not_mem_keys data "upload" hnk]
      rfl

/-- C10 witness: parameters containing the allowed
`upload_to_lookaside: true` validate and still take the copy path. -/
theorem replace_file_upload_unreachable_witness :
    action_validate replace_file_schema
      [("filename", YVal.s "f"), ("upload_to_lookaside", YVal.b true)] = .ok () ∧
    replace_file_branch [("filename", YVal.s "f"), ("upload_to_lookaside", YVal.b true)]
      = .copy :=
  ⟨rfl, replace_file_upload_unreachable
    [("filename", YVal.s "f"), ("upload_to_lookaside", YVal.b true)] rfl⟩

/-- C7 witness: a three-line spec around the Release line; only the
Release line changes. -/
theorem exact_single_line_replace_witness :
    (∀ l ∈ (["Name: foo"] : List String), pyCount "1%\x7b?dist\x7d" l = 0) ∧
    (∀ l ∈ (["%install"] : List String), pyCount "1%\x7b?dist\x7d" l = 0) ∧
    search_and_replace_execute "specfile" "1%\x7b?dist\x7d" "2%\x7b?dist\x7d" 1 false
      (["Name: foo"] ++ ["Release:  1%\x7b?dist\x7d"] ++ ["%install"])
      = .ok (["Name: foo"] ++ ["Release:  2%\x7b?dist\x7d"] ++ ["%install"]) :=
  ⟨by decide, by decide,
    exact_single_line_replace ["Name: foo"] ["%install"] (by decide) (by decide)⟩
